import Mathlib

/-
Verification development for the snmp-agent-app monitor (agent.py).

The embedding models the Worker's health-check logic: the per-category
dedup flags (`notified_offline`, `notified_dead_drives`,
`notified_power_supply_failure`), the per-tick check functions
(`check_nodes`, `check_drives`, `check_power`, `check_cluster_status`),
the notification dispatch (`notify` / `send_email` / `sendTrap`) and the
poll loop body (`Worker.run`).

Python exceptions that escape a check (KeyError / IndexError on the
power-supply bookkeeping) are modelled with `Except Unit`; the
`except TypeError` clauses in `check_power` are modelled by the `none`
case of the power-state query result.
-/

namespace SnmpAgent

/-- Kind of a notification: raised on a healthy-to-unhealthy transition
(alert) or on the way back (clear). The kind records which branch of the
source emitted the notification. -/
inductive EvKind
  | alert
  | clear
deriving DecidableEq

/-- Entity key of a notification: which monitored condition it is about.
`power` carries the node id (position of the IPMI endpoint) and the
supply label. -/
inductive EntityKey
  | nodeAgg
  | driveAgg
  | power (nodeId : Nat) (label : String)
  | connectivity
deriving DecidableEq

/-- An SNMP object identifier, as a list of arcs. -/
abbrev Oid := List Nat

/-- Decidable equality for `Except`, used to evaluate the model on
concrete scenarios. -/
instance {ε α : Type} [DecidableEq ε] [DecidableEq α] :
    DecidableEq (Except ε α) := fun a b =>
  match a, b with
  | .error e1, .error e2 =>
    if h : e1 = e2 then isTrue (by rw [h])
    else isFalse (by intro hc; cases hc; exact h rfl)
  | .ok v1, .ok v2 =>
    if h : v1 = v2 then isTrue (by rw [h])
    else isFalse (by intro hc; cases hc; exact h rfl)
  | .error _, .ok _ => isFalse (by intro hc; cases hc)
  | .ok _, .error _ => isFalse (by intro hc; cases hc)

/-- A notification event as produced by the Worker check methods: the
arguments of the corresponding `self.notify(subject, message, trap_name,
var_binds)` call, tagged with the entity key and kind of the emitting
branch. -/
structure Event where
  key : EntityKey
  kind : EvKind
  subject : String
  body : String
  trapName : Option String
  varBinds : List (Oid × String)
deriving DecidableEq

/-- Modelled from the spec: result of `QumuloClient.get_power_state`
(qumulo_client.py is not part of src/). A well-formed result maps the
states FAIL and GOOD to the lists of supply labels currently in that
state, exactly as `check_power` consumes it via `power_states['FAIL']`
and `power_states['GOOD']`; `none` stands for malformed/missing data,
whose subscripting raises the TypeError that `check_power` catches. -/
structure PowerStates where
  fail : List String
  good : List String
deriving DecidableEq

/-- One node's power-supply dedup dictionary
(`self.notified_power_supply_failure[node_id]`): label to notified flag. -/
abbrev PSDict := List (String × Bool)

/-- Dictionary lookup; `none` models a Python KeyError. -/
def psLookup (d : PSDict) (k : String) : Option Bool :=
  match d with
  | [] => none
  | (k', v) :: rest => if k' = k then some v else psLookup rest k

/-- Dictionary update of an existing key (the source only assigns to keys
it has just read). -/
def psSet : PSDict → String → Bool → PSDict
  | [], _, _ => []
  | (k', v) :: rest, k, b => (k', if k' = k then b else v) :: psSet rest k b

/-- List indexing; `none` models a Python IndexError. -/
def getNode (flags : List PSDict) (i : Nat) : Option PSDict :=
  match flags, i with
  | [], _ => none
  | d :: _, 0 => some d
  | _ :: rest, n + 1 => getNode rest n

/-- List update at an index (no-op when out of range, which the source
never does on a successful read). -/
def setNode (flags : List PSDict) (i : Nat) (d : PSDict) : List PSDict :=
  match flags, i with
  | [], _ => []
  | _ :: rest, 0 => d :: rest
  | e :: rest, n + 1 => e :: setNode rest n d

/-- Python `list.index`: position of the first occurrence. The source
never calls it on an absent element (it indexes an element of the list
being iterated). -/
def indexOfServer (servers : List String) (s : String) : Nat :=
  match servers with
  | [] => 0
  | t :: rest => if t = s then 0 else indexOfServer rest s + 1

/-- The Worker's mutable dedup state (`Worker.__init__`). -/
structure WorkerState where
  notified_offline : Bool
  notified_dead_drives : Bool
  notified_power_supply_failure : List PSDict
deriving DecidableEq

/-- Initial per-node dedup dictionary from `Worker.__init__`:
both supplies start un-notified. -/
def initPSDict : PSDict := [("PS1", false), ("PS2", false)]

/-- Initial Worker state: flags false, one PS dictionary per configured
IPMI endpoint. -/
def initWorkerState (numIpmiServers : Nat) : WorkerState :=
  ⟨false, false, List.replicate numIpmiServers initPSDict⟩

/-- Message built by `check_nodes` on the alert path: the count of
offline nodes followed by one clause per offline node. -/
def nodeOfflineMsg (offline : List String) : String :=
  offline.foldl (fun m n => m ++ "\tNode " ++ n ++ " is currently offline.")
    ("There are currently " ++ toString offline.length ++ " nodes offline:")

/-- The node-aggregate ALERT notification of `check_nodes`. -/
def nodesAlertEvent (offline : List String) : Event :=
  { key := .nodeAgg, kind := .alert, subject := "Qumulo Nodes Offline",
    body := nodeOfflineMsg offline, trapName := some "nodeDownTrap", varBinds := [] }

/-- The node-aggregate CLEAR notification of `check_nodes`. -/
def nodesClearEvent : Event :=
  { key := .nodeAgg, kind := .clear, subject := "Qumulo Nodes Back Online",
    body := "All nodes back online", trapName := some "nodesClearTrap", varBinds := [] }

/-- `Worker.check_nodes`, as a function of the offline-node list reported
by the client and the `notified_offline` flag; returns the emitted
notifications and the new flag. -/
def check_nodes (offline : List String) (notified_offline : Bool) :
    List Event × Bool :=
  if 0 < offline.length then
    if notified_offline = false then ([nodesAlertEvent offline], true)
    else ([], notified_offline)
  else
    if notified_offline = true then ([nodesClearEvent], false)
    else ([], notified_offline)

/-- Message built by `check_drives` on the alert path. A dead drive is a
pair (disk_type, id). -/
def driveOfflineMsg (dead : List (String × String)) : String :=
  dead.foldl (fun m d => m ++ "\t" ++ d.1 ++ " Drive" ++ d.2 ++ " is offline.")
    ("There are currently " ++ toString dead.length ++ " drives offline:")

/-- The drive-aggregate ALERT notification of `check_drives`. -/
def drivesAlertEvent (dead : List (String × String)) : Event :=
  { key := .driveAgg, kind := .alert, subject := "Qumulo Drives Offline",
    body := driveOfflineMsg dead, trapName := some "driveFailureTrap", varBinds := [] }

/-- The drive-aggregate CLEAR notification of `check_drives`; its body is
the node-themed text, verbatim from the source. -/
def drivesClearEvent : Event :=
  { key := .driveAgg, kind := .clear, subject := "Qumulo Drives Back Online",
    body := "All nodes back online", trapName := some "nodesClearTrap", varBinds := [] }

/-- `Worker.check_drives` as a function of the dead-drive list and the
`notified_dead_drives` flag. -/
def check_drives (dead : List (String × String)) (notified_dead_drives : Bool) :
    List Event × Bool :=
  if 0 < dead.length then
    if notified_dead_drives = false then ([drivesAlertEvent dead], true)
    else ([], notified_dead_drives)
  else
    if notified_dead_drives = true then ([drivesClearEvent], false)
    else ([], notified_dead_drives)

/-- The vendor enterprise subtree used by the power-supply var binds
(1.3.6.1.4.1.47017). -/
def enterpriseOid : Oid := [1, 3, 6, 1, 4, 1, 47017]

/-- Node name as computed in `check_power`: cluster name, dash, 1-based
node id. -/
def nodeNameOf (clusterName : String) (nodeId : Nat) : String :=
  clusterName ++ "-" ++ toString (nodeId + 1)

/-- The power-supply-failure ALERT notification of `check_power`, with
its two var binds: .8 holds the node name, .11 the supply label. -/
def psFailEvent (clusterName : String) (nodeId : Nat) (ps : String) : Event :=
  { key := .power nodeId ps, kind := .alert,
    subject := "[ALERT] Qumulo Power Supply Failure " ++ nodeNameOf clusterName nodeId,
    body := ps ++ " in " ++ nodeNameOf clusterName nodeId ++ " failed",
    trapName := some "powerSupplyFailureTrap",
    varBinds := [(enterpriseOid ++ [8], nodeNameOf clusterName nodeId),
                 (enterpriseOid ++ [11], ps)] }

/-- The power-supply CLEAR notification of `check_power`. -/
def psClearEvent (clusterName : String) (nodeId : Nat) (ps : String) : Event :=
  { key := .power nodeId ps, kind := .clear,
    subject := "Qumulo Power Supply Normal",
    body := ps ++ " in " ++ nodeNameOf clusterName nodeId ++ " power back to normal",
    trapName := some "nodesClearTrap", varBinds := [] }

/-- The warning `check_power` logs when one of its loops hits a
TypeError on malformed IPMI data. -/
def ipmiWarnLog : String :=
  "WARNING: IPMI Exception, please verify IPMI config."

/-- The FAIL loop of `check_power`: alert on every failed supply whose
flag is unset, setting the flag. A label absent from the dictionary is a
KeyError (not caught by the `except TypeError` clause): `.error`. -/
def processFail (clusterName : String) (nodeId : Nat) (labels : List String)
    (d : PSDict) : Except Unit (List Event × PSDict) :=
  match labels with
  | [] => .ok ([], d)
  | ps :: rest =>
    match psLookup d ps with
    | none => .error ()
    | some true => processFail clusterName nodeId rest d
    | some false =>
      match processFail clusterName nodeId rest (psSet d ps true) with
      | .error e => .error e
      | .ok (evs, d') => .ok (psFailEvent clusterName nodeId ps :: evs, d')

/-- The GOOD loop of `check_power`: clear on every good supply whose flag
is set, clearing the flag. -/
def processGood (clusterName : String) (nodeId : Nat) (labels : List String)
    (d : PSDict) : Except Unit (List Event × PSDict) :=
  match labels with
  | [] => .ok ([], d)
  | ps :: rest =>
    match psLookup d ps with
    | none => .error ()
    | some false => processGood clusterName nodeId rest d
    | some true =>
      match processGood clusterName nodeId rest (psSet d ps false) with
      | .error e => .error e
      | .ok (evs, d') => .ok (psClearEvent clusterName nodeId ps :: evs, d')

/-- `Worker.check_power` for one IPMI endpoint: a `none` query result
makes both loops raise TypeError, which is caught and logged (twice, once
per loop) with no evaluation; a well-formed result runs the FAIL loop and
then the GOOD loop over the endpoint's dedup dictionary. Returns the
emitted notifications, the logged warnings and the updated dictionary. -/
def check_power (clusterName : String) (powerStates : Option PowerStates)
    (nodeId : Nat) (d : PSDict) :
    Except Unit (List Event × List String × PSDict) :=
  match powerStates with
  | none => .ok ([], [ipmiWarnLog, ipmiWarnLog], d)
  | some ps =>
    match processFail clusterName nodeId ps.fail d with
    | .error e => .error e
    | .ok (evF, d1) =>
      match processGood clusterName nodeId ps.good d1 with
      | .error e => .error e
      | .ok (evG, d2) => .ok (evF ++ evG, [], d2)

/-- The IPMI loop of `check_cluster_status`: for each endpoint, in
configured order, run `check_power` with
`node_id = list(ipmi_servers).index(ipmi_server)`.  The per-endpoint pair
list carries each endpoint's query result; out-of-range access to the
dedup array is an IndexError: `.error`. -/
def checkPowerList (clusterName : String) (servers : List String)
    (toProcess : List (String × Option PowerStates)) (flags : List PSDict) :
    Except Unit (List Event × List String × List PSDict) :=
  match toProcess with
  | [] => .ok ([], [], flags)
  | (srv, ps) :: rest =>
    match getNode flags (indexOfServer servers srv) with
    | none => .error ()
    | some d =>
      match check_power clusterName ps (indexOfServer servers srv) d with
      | .error e => .error e
      | .ok (ev1, lg1, d') =>
        match checkPowerList clusterName servers rest
            (setNode flags (indexOfServer servers srv) d') with
        | .error e => .error e
        | .ok (ev2, lg2, flags') => .ok (ev1 ++ ev2, lg1 ++ lg2, flags')

/-- The cluster-connectivity ALERT notification of
`check_cluster_status`. -/
def clusterOfflineEvent : Event :=
  { key := .connectivity, kind := .alert, subject := "Qumulo Cluster offline",
    body := "Error connecting to Qumulo Cluster REST Server",
    trapName := some "nodeDownTrap", varBinds := [] }

/-- Per-tick input: the configuration values `check_cluster_status`
reads and the client observations of this tick.  `credsPresent` is
whether `self.client.credentials is not None`; `powerResults` pairs up
positionally with `ipmiServers`. -/
structure TickInput where
  ipmiEnabled : Bool
  clusterName : String
  ipmiServers : List String
  powerResults : List (Option PowerStates)
  credsPresent : Bool
  offlineNodes : List String
  deadDrives : List (String × String)
deriving DecidableEq

/-- Result of one `check_cluster_status` call: notifications in emission
order, logged warnings, whether `self.client.login()` was called, and
the new Worker state. -/
structure TickResult where
  events : List Event
  logs : List String
  loginAttempted : Bool
  state : WorkerState
deriving DecidableEq

/-- The opening IPMI block of `check_cluster_status`: when IPMI is
enabled, run `check_power` over every configured endpoint; otherwise do
nothing. -/
def powerStage (inp : TickInput) (st : WorkerState) :
    Except Unit (List Event × List String × List PSDict) :=
  if inp.ipmiEnabled then
    checkPowerList inp.clusterName inp.ipmiServers
      (inp.ipmiServers.zip inp.powerResults)
      st.notified_power_supply_failure
  else .ok ([], [], st.notified_power_supply_failure)

/-- `Worker.check_cluster_status`: the IPMI power checks run first
(whenever IPMI is enabled, regardless of connectivity); then, with
credentials present, `check_nodes` and `check_drives`; with credentials
absent, either the cluster-offline notification (when `notified_offline`
is unset) or a `login()` retry (when it is set). -/
def check_cluster_status (inp : TickInput) (st : WorkerState) :
    Except Unit TickResult :=
  match powerStage inp st with
  | .error e => .error e
  | .ok (evP, lgP, flags') =>
    if inp.credsPresent then
      .ok { events := evP ++ (check_nodes inp.offlineNodes st.notified_offline).1
                          ++ (check_drives inp.deadDrives st.notified_dead_drives).1,
            logs := lgP, loginAttempted := false,
            state := ⟨(check_nodes inp.offlineNodes st.notified_offline).2,
                      (check_drives inp.deadDrives st.notified_dead_drives).2,
                      flags'⟩ }
    else
      if st.notified_offline = false then
        .ok { events := evP ++ [clusterOfflineEvent],
              logs := lgP ++ ["Error connecting to Qumulo Cluster REST Server"],
              loginAttempted := false,
              state := ⟨true, st.notified_dead_drives, flags'⟩ }
      else
        .ok { events := evP, logs := lgP, loginAttempted := true,
              state := ⟨st.notified_offline, st.notified_dead_drives, flags'⟩ }

/-- Iterated ticks: one `check_cluster_status` per poll observation,
threading the Worker state; returns each tick's notifications. -/
def runTicks (st : WorkerState) : List TickInput →
    Except Unit (List (List Event) × WorkerState)
  | [] => .ok ([], st)
  | inp :: rest =>
    match check_cluster_status inp st with
    | .error e => .error e
    | .ok r =>
      match runTicks r.state rest with
      | .error e => .error e
      | .ok (evss, st') => .ok (r.events :: evss, st')

/-- One observable step of the `Worker.run` loop body, in source order:
the sleep, the SharedCounter write, the health checks of the tick. -/
inductive RunItem
  | sleep (secs : Nat)
  | counterSet (n : Nat)
  | healthChecks (evs : List Event)
deriving DecidableEq

/-- Whether a run item is the SharedCounter write. -/
def isCounterSet : RunItem → Bool
  | .counterSet _ => true
  | _ => false

/-- Whether a run item is the health-check step. -/
def isHealthChecks : RunItem → Bool
  | .healthChecks _ => true
  | _ => false

/-- One iteration of `Worker.run`: `time.sleep(5)`, then
`setTestCount(getTestCount() + 1)`, then `check_cluster_status()`.
Returns the ordered trace of the iteration, the new counter value and
the new Worker state. -/
def runIter (counter : Nat) (inp : TickInput) (st : WorkerState) :
    Except Unit (List RunItem × Nat × WorkerState) :=
  match check_cluster_status inp st with
  | .error e => .error e
  | .ok r => .ok ([.sleep 5, .counterSet (counter + 1), .healthChecks r.events],
                  counter + 1, r.state)

/-- Environment of one `Worker.notify` call: the channel enable flags and
the outcome each channel's collaborator would produce.
`trapErrorIndication` models the errorIndication value pysnmp's
`sendNotification` returns on a delivery problem (`SNMPAgent.sendTrap`
assigns it and never reads it); `emailError` models an exception raised
inside `send_email`'s try block (SMTP connect, login or send failure). -/
structure DispatchEnv where
  snmpEnabled : Bool
  emailEnabled : Bool
  trapErrorIndication : Option String
  emailError : Option String
deriving DecidableEq

/-- One observable step of a `notify` call, in execution order: a log
line, the trap send, or the email delivery attempt. -/
inductive DispatchItem
  | warnLog (s : String)
  | infoLog (s : String)
  | trapSend (trapName : Option String) (varBinds : List (Oid × String))
  | emailAttempt (subject : String) (body : String)
deriving DecidableEq

/-- Whether a dispatch item is a warning-level log line. -/
def isWarnItem : DispatchItem → Bool
  | .warnLog _ => true
  | _ => false

/-- The warning `send_email` logs when its try block raises. -/
def emailFailMsg (subject err : String) : String :=
  "Failed to send email (Subject: " ++ subject ++ ") (" ++ err ++ ")"

/-- `Worker.send_email`: the delivery attempt, and on any exception the
caught-and-logged warning. The attempt item stands for entering the try
block (the message may or may not reach the server before the
exception). -/
def send_email (env : DispatchEnv) (subject body : String) : List DispatchItem :=
  match env.emailError with
  | none => [.emailAttempt subject body]
  | some e => [.emailAttempt subject body, .warnLog (emailFailMsg subject e)]

/-- `SNMPAgent.sendTrap`: it calls `sendNotification` and assigns the
returned errorIndication to a local that is never read, so the trace does
not depend on `env.trapErrorIndication`. -/
def sendTrap (trapName : Option String) (varBinds : List (Oid × String)) :
    List DispatchItem :=
  [.trapSend trapName varBinds]

/-- `Worker.notify`: log the message at warning level, then send the trap
when SNMP is enabled, then send the email when email is enabled. -/
def notify (env : DispatchEnv) (subject message : String)
    (trapName : Option String) (varBinds : List (Oid × String)) :
    List DispatchItem :=
  [.warnLog message]
    ++ (if env.snmpEnabled then .infoLog "Sending trap" :: sendTrap trapName varBinds
        else [])
    ++ (if env.emailEnabled then .infoLog "Sending email" :: send_email env subject message
        else [])

/-- A dedup-state key actually tracked by the Worker. The source shares
one flag (`notified_offline`) between the node-aggregate and the
cluster-connectivity notifications, so those two categories form a
single tracked key. -/
inductive TrackKey
  | nodeConn
  | driveKey
  | powerKey (nodeId : Nat) (label : String)
deriving DecidableEq

/-- Whether a notification's entity key belongs to a tracked key. -/
def keyMatches : TrackKey → EntityKey → Bool
  | .nodeConn, .nodeAgg => true
  | .nodeConn, .connectivity => true
  | .driveKey, .driveAgg => true
  | .powerKey i l, .power j m => decide (i = j) && decide (l = m)
  | _, _ => false

/-- The kinds of the notifications for one tracked key, in emission
order. -/
def projKinds (k : TrackKey) (evs : List Event) : List EvKind :=
  (evs.filter (fun e => keyMatches k e.key)).map Event.kind

/-- The stored flag of one power-supply key: node dictionary, then
label. -/
def powerFlag (flags : List PSDict) (i : Nat) (l : String) : Option Bool :=
  match getNode flags i with
  | none => none
  | some d => psLookup d l

/-- The stored dedup flag of a tracked key in a Worker state (`none`
when the key was never initialised). -/
def flagOf (st : WorkerState) : TrackKey → Option Bool
  | .nodeConn => some st.notified_offline
  | .driveKey => some st.notified_dead_drives
  | .powerKey i l => powerFlag st.notified_power_supply_failure i l

/-- Edge-triggered trace validity: starting from a stored flag, an alert
is legal exactly when the flag is unset (and sets it), a clear exactly
when it is set (and clears it); returns the final flag, or `none` for an
illegal trace. -/
def altSteps : Option Bool → List EvKind → Option (Option Bool)
  | b, [] => some b
  | some false, .alert :: ks => altSteps (some true) ks
  | some true, .clear :: ks => altSteps (some false) ks
  | _, _ :: _ => none

/-- Shape of the notifications `check_power` can emit for a given
endpoint. -/
def isPowerEventOf (clusterName : String) (nodeId : Nat) (e : Event) : Prop :=
  (∃ l, e = psFailEvent clusterName nodeId l) ∨
  (∃ l, e = psClearEvent clusterName nodeId l)

/-- Shape of any notification one `check_cluster_status` call can
emit. -/
def eventShape (inp : TickInput) (e : Event) : Prop :=
  e = nodesAlertEvent inp.offlineNodes ∨ e = nodesClearEvent ∨
  e = drivesAlertEvent inp.deadDrives ∨ e = drivesClearEvent ∨
  e = clusterOfflineEvent ∨
  (∃ i l, e = psFailEvent inp.clusterName i l) ∨
  (∃ i l, e = psClearEvent inp.clusterName i l)

/-- Whether an endpoint query result reports supply `l` in its FAIL
list. -/
def resultFails (res : Option PowerStates) (l : String) : Bool :=
  match res with
  | none => false
  | some ps => decide (l ∈ ps.fail)

/-- Whether an endpoint query result reports supply `l` in its GOOD
list. -/
def resultClears (res : Option PowerStates) (l : String) : Bool :=
  match res with
  | none => false
  | some ps => decide (l ∈ ps.good)

/-- The observation "power supply (i, l) is failed" on one tick: IPMI is
enabled, some endpoint with node id `i` reports `l` failed, and no
endpoint with node id `i` reports `l` good. -/
abbrev observesFail (inp : TickInput) (i : Nat) (l : String) : Prop :=
  inp.ipmiEnabled = true ∧
  (∃ pr ∈ inp.ipmiServers.zip inp.powerResults,
    indexOfServer inp.ipmiServers pr.1 = i ∧ resultFails pr.2 l = true) ∧
  (∀ pr ∈ inp.ipmiServers.zip inp.powerResults,
    indexOfServer inp.ipmiServers pr.1 = i → resultClears pr.2 l = false)

theorem psLookup_psSet_self (d : PSDict) (k : String) (b c : Bool)
    (h : psLookup d k = some b) : psLookup (psSet d k c) k = some c := by
  induction d with
  | nil => simp [psLookup] at h
  | cons p rest ih =>
    obtain ⟨k', v⟩ := p
    by_cases hk : k' = k
    · simp [psLookup, psSet, hk]
    · simp only [psLookup, psSet, if_neg hk] at h ⊢
      exact ih h

theorem psLookup_psSet_ne (d : PSDict) (k m : String) (c : Bool)
    (h : k ≠ m) : psLookup (psSet d m c) k = psLookup d k := by
  induction d with
  | nil => simp [psLookup, psSet]
  | cons p rest ih =>
    obtain ⟨k', v⟩ := p
    by_cases hkk : k' = k
    · simp [psLookup, psSet, hkk, h]
    · simp only [psLookup, psSet, if_neg hkk]
      exact ih

theorem getNode_setNode_self (flags : List PSDict) (i : Nat) (d d0 : PSDict)
    (h : getNode flags i = some d0) :
    getNode (setNode flags i d) i = some d := by
  induction flags generalizing i with
  | nil => simp [getNode] at h
  | cons e rest ih =>
    cases i with
    | zero => simp [getNode, setNode]
    | succ n =>
      simp only [getNode, setNode] at h ⊢
      exact ih n h

theorem getNode_setNode_ne (flags : List PSDict) (i j : Nat) (d : PSDict)
    (h : i ≠ j) : getNode (setNode flags j d) i = getNode flags i := by
  induction flags generalizing i j with
  | nil => simp [getNode, setNode]
  | cons e rest ih =>
    cases j with
    | zero =>
      cases i with
      | zero => exact absurd rfl h
      | succ n => simp [getNode, setNode]
    | succ m =>
      cases i with
      | zero => simp [getNode, setNode]
      | succ n =>
        simp only [getNode, setNode]
        exact ih n m (fun hnm => h (by omega))

theorem altSteps_append (ks1 ks2 : List EvKind) (b : Option Bool) :
    altSteps b (ks1 ++ ks2) = (altSteps b ks1).bind (fun b' => altSteps b' ks2) := by
  induction ks1 generalizing b with
  | nil => simp [altSteps]
  | cons k ks ih =>
    cases b with
    | none => simp [altSteps]
    | some bb => cases bb <;> cases k <;> simp [altSteps, ih]

theorem projKinds_append (k : TrackKey) (evs1 evs2 : List Event) :
    projKinds k (evs1 ++ evs2) = projKinds k evs1 ++ projKinds k evs2 := by
  simp [projKinds]

theorem projKinds_nil_of (k : TrackKey) (evs : List Event)
    (h : ∀ e ∈ evs, keyMatches k e.key = false) : projKinds k evs = [] := by
  simp only [projKinds, List.map_eq_nil_iff, List.filter_eq_nil_iff]
  intro e he
  simp [h e he]

theorem keyMatches_power_false (k : TrackKey) (nid : Nat) (l : String)
    (hk : ∀ m, k ≠ .powerKey nid m) : keyMatches k (.power nid l) = false := by
  cases k with
  | nodeConn => rfl
  | driveKey => rfl
  | powerKey j m =>
    by_cases hj : j = nid
    · exact absurd (by rw [hj]) (hk m)
    · simp [keyMatches, hj]

theorem processFail_shape (cn : String) (nid : Nat) (labels : List String) :
    ∀ (d : PSDict) (evs : List Event) (d' : PSDict),
      processFail cn nid labels d = .ok (evs, d') →
      ∀ e ∈ evs, ∃ l, e = psFailEvent cn nid l := by
  induction labels with
  | nil =>
    intro d evs d' h e he
    simp only [processFail, Except.ok.injEq, Prod.mk.injEq] at h
    obtain ⟨rfl, rfl⟩ := h
    simp at he
  | cons ps rest ih =>
    intro d evs d' h e he
    cases hps : psLookup d ps with
    | none => simp [processFail, hps] at h
    | some b =>
      cases b with
      | true =>
        simp only [processFail, hps] at h
        exact ih _ _ _ h e he
      | false =>
        simp only [processFail, hps] at h
        cases hrec : processFail cn nid rest (psSet d ps true) with
        | error e0 => simp [hrec] at h
        | ok p =>
          obtain ⟨evs0, d0⟩ := p
          simp only [hrec] at h
          simp only [Except.ok.injEq, Prod.mk.injEq] at h
          obtain ⟨rfl, rfl⟩ := h
          rcases List.mem_cons.mp he with rfl | he0
          · exact ⟨ps, rfl⟩
          · exact ih _ _ _ hrec e he0

theorem processFail_alt (cn : String) (nid : Nat) (labels : List String) :
    ∀ (d : PSDict) (evs : List Event) (d' : PSDict),
      processFail cn nid labels d = .ok (evs, d') →
      ∀ l, altSteps (psLookup d l) (projKinds (.powerKey nid l) evs)
            = some (psLookup d' l) := by
  induction labels with
  | nil =>
    intro d evs d' h l
    simp only [processFail, Except.ok.injEq, Prod.mk.injEq] at h
    obtain ⟨rfl, rfl⟩ := h
    simp [projKinds, altSteps]
  | cons ps rest ih =>
    intro d evs d' h l
    cases hps : psLookup d ps with
    | none => simp [processFail, hps] at h
    | some b =>
      cases b with
      | true =>
        simp only [processFail, hps] at h
        exact ih _ _ _ h l
      | false =>
        simp only [processFail, hps] at h
        cases hrec : processFail cn nid rest (psSet d ps true) with
        | error e0 => simp [hrec] at h
        | ok p =>
          obtain ⟨evs0, d0⟩ := p
          simp only [hrec] at h
          simp only [Except.ok.injEq, Prod.mk.injEq] at h
          obtain ⟨rfl, rfl⟩ := h
          by_cases hl : l = ps
          · subst hl
            have hproj : projKinds (.powerKey nid l) (psFailEvent cn nid l :: evs0)
                = .alert :: projKinds (.powerKey nid l) evs0 := by
              simp [projKinds, keyMatches, psFailEvent]
            rw [hproj, hps]
            simp only [altSteps]
            have hrest := ih _ _ _ hrec l
            rwa [psLookup_psSet_self d l false true hps] at hrest
          · have hproj : projKinds (.powerKey nid l) (psFailEvent cn nid ps :: evs0)
                = projKinds (.powerKey nid l) evs0 := by
              simp [projKinds, keyMatches, psFailEvent, hl]
            rw [hproj]
            have hrest := ih _ _ _ hrec l
            rwa [psLookup_psSet_ne d l ps true hl] at hrest

theorem processGood_shape (cn : String) (nid : Nat) (labels : List String) :
    ∀ (d : PSDict) (evs : List Event) (d' : PSDict),
      processGood cn nid labels d = .ok (evs, d') →
      ∀ e ∈ evs, ∃ l, e = psClearEvent cn nid l := by
  induction labels with
  | nil =>
    intro d evs d' h e he
    simp only [processGood, Except.ok.injEq, Prod.mk.injEq] at h
    obtain ⟨rfl, rfl⟩ := h
    simp at he
  | cons ps rest ih =>
    intro d evs d' h e he
    cases hps : psLookup d ps with
    | none => simp [processGood, hps] at h
    | some b =>
      cases b with
      | false =>
        simp only [processGood, hps] at h
        exact ih _ _ _ h e he
      | true =>
        simp only [processGood, hps] at h
        cases hrec : processGood cn nid rest (psSet d ps false) with
        | error e0 => simp [hrec] at h
        | ok p =>
          obtain ⟨evs0, d0⟩ := p
          simp only [hrec] at h
          simp only [Except.ok.injEq, Prod.mk.injEq] at h
          obtain ⟨rfl, rfl⟩ := h
          rcases List.mem_cons.mp he with rfl | he0
          · exact ⟨ps, rfl⟩
          · exact ih _ _ _ hrec e he0

theorem processGood_alt (cn : String) (nid : Nat) (labels : List String) :
    ∀ (d : PSDict) (evs : List Event) (d' : PSDict),
      processGood cn nid labels d = .ok (evs, d') →
      ∀ l, altSteps (psLookup d l) (projKinds (.powerKey nid l) evs)
            = some (psLookup d' l) := by
  induction labels with
  | nil =>
    intro d evs d' h l
    simp only [processGood, Except.ok.injEq, Prod.mk.injEq] at h
    obtain ⟨rfl, rfl⟩ := h
    simp [projKinds, altSteps]
  | cons ps rest ih =>
    intro d evs d' h l
    cases hps : psLookup d ps with
    | none => simp [processGood, hps] at h
    | some b =>
      cases b with
      | false =>
        simp only [processGood, hps] at h
        exact ih _ _ _ h l
      | true =>
        simp only [processGood, hps] at h
        cases hrec : processGood cn nid rest (psSet d ps false) with
        | error e0 => simp [hrec] at h
        | ok p =>
          obtain ⟨evs0, d0⟩ := p
          simp only [hrec] at h
          simp only [Except.ok.injEq, Prod.mk.injEq] at h
          obtain ⟨rfl, rfl⟩ := h
          by_cases hl : l = ps
          · subst hl
            have hproj : projKinds (.powerKey nid l) (psClearEvent cn nid l :: evs0)
                = .clear :: projKinds (.powerKey nid l) evs0 := by
              simp [projKinds, keyMatches, psClearEvent]
            rw [hproj, hps]
            simp only [altSteps]
            have hrest := ih _ _ _ hrec l
            rwa [psLookup_psSet_self d l true false hps] at hrest
          · have hproj : projKinds (.powerKey nid l) (psClearEvent cn nid ps :: evs0)
                = projKinds (.powerKey nid l) evs0 := by
              simp [projKinds, keyMatches, psClearEvent, hl]
            rw [hproj]
            have hrest := ih _ _ _ hrec l
            rwa [psLookup_psSet_ne d l ps false hl] at hrest

theorem check_power_shape (cn : String) (ps? : Option PowerStates) (nid : Nat)
    (d : PSDict) (evs : List Event) (lgs : List String) (d' : PSDict)
    (h : check_power cn ps? nid d = .ok (evs, lgs, d')) :
    ∀ e ∈ evs, isPowerEventOf cn nid e := by
  intro e he
  cases ps? with
  | none =>
    simp only [check_power, Except.ok.injEq, Prod.mk.injEq] at h
    obtain ⟨rfl, -, rfl⟩ := h
    simp at he
  | some ps =>
    simp only [check_power] at h
    cases hF : processFail cn nid ps.fail d with
    | error e0 => simp [hF] at h
    | ok p1 =>
      obtain ⟨evF, d1⟩ := p1
      simp only [hF] at h
      cases hG : processGood cn nid ps.good d1 with
      | error e0 => simp [hG] at h
      | ok p2 =>
        obtain ⟨evG, d2⟩ := p2
        simp only [hG] at h
        simp only [Except.ok.injEq, Prod.mk.injEq] at h
        obtain ⟨rfl, -, rfl⟩ := h
        rcases List.mem_append.mp he with h1 | h2
        · exact Or.inl (processFail_shape cn nid ps.fail d evF d1 hF e h1)
        · exact Or.inr (processGood_shape cn nid ps.good d1 evG d2 hG e h2)

theorem check_power_alt (cn : String) (ps? : Option PowerStates) (nid : Nat)
    (d : PSDict) (evs : List Event) (lgs : List String) (d' : PSDict)
    (h : check_power cn ps? nid d = .ok (evs, lgs, d')) (l : String) :
    altSteps (psLookup d l) (projKinds (.powerKey nid l) evs)
      = some (psLookup d' l) := by
  cases ps? with
  | none =>
    simp only [check_power, Except.ok.injEq, Prod.mk.injEq] at h
    obtain ⟨rfl, -, rfl⟩ := h
    simp [projKinds, altSteps]
  | some ps =>
    simp only [check_power] at h
    cases hF : processFail cn nid ps.fail d with
    | error e0 => simp [hF] at h
    | ok p1 =>
      obtain ⟨evF, d1⟩ := p1
      simp only [hF] at h
      cases hG : processGood cn nid ps.good d1 with
      | error e0 => simp [hG] at h
      | ok p2 =>
        obtain ⟨evG, d2⟩ := p2
        simp only [hG] at h
        simp only [Except.ok.injEq, Prod.mk.injEq] at h
        obtain ⟨rfl, -, rfl⟩ := h
        rw [projKinds_append, altSteps_append,
            processFail_alt cn nid ps.fail d evF d1 hF l]
        simpa using processGood_alt cn nid ps.good d1 evG d2 hG l

theorem checkPowerList_shape (cn : String) (servers : List String)
    (toProcess : List (String × Option PowerStates)) :
    ∀ (flags : List PSDict) (evs : List Event) (lgs : List String)
      (flags' : List PSDict),
      checkPowerList cn servers toProcess flags = .ok (evs, lgs, flags') →
      ∀ e ∈ evs, ∃ j, isPowerEventOf cn j e := by
  induction toProcess with
  | nil =>
    intro flags evs lgs flags' h e he
    simp only [checkPowerList, Except.ok.injEq, Prod.mk.injEq] at h
    obtain ⟨rfl, -, rfl⟩ := h
    simp at he
  | cons pr rest ih =>
    obtain ⟨srv, ps⟩ := pr
    intro flags evs lgs flags' h e he
    simp only [checkPowerList] at h
    cases hg : getNode flags (indexOfServer servers srv) with
    | none => simp [hg] at h
    | some d =>
      simp only [hg] at h
      cases hcp : check_power cn ps (indexOfServer servers srv) d with
      | error e0 => simp [hcp] at h
      | ok t1 =>
        obtain ⟨ev1, lg1, d'⟩ := t1
        simp only [hcp] at h
        cases hrec : checkPowerList cn servers rest
            (setNode flags (indexOfServer servers srv) d') with
        | error e0 => simp [hrec] at h
        | ok t2 =>
          obtain ⟨ev2, lg2, fl2⟩ := t2
          simp only [hrec] at h
          simp only [Except.ok.injEq, Prod.mk.injEq] at h
          obtain ⟨rfl, -, rfl⟩ := h
          rcases List.mem_append.mp he with h1 | h2
          · exact ⟨_, check_power_shape cn ps _ d ev1 lg1 d' hcp e h1⟩
          · exact ih _ _ _ _ hrec e h2

theorem checkPowerList_alt (cn : String) (servers : List String)
    (toProcess : List (String × Option PowerStates)) :
    ∀ (flags : List PSDict) (evs : List Event) (lgs : List String)
      (flags' : List PSDict),
      checkPowerList cn servers toProcess flags = .ok (evs, lgs, flags') →
      ∀ (i : Nat) (l : String),
        altSteps (powerFlag flags i l) (projKinds (.powerKey i l) evs)
          = some (powerFlag flags' i l) := by
  induction toProcess with
  | nil =>
    intro flags evs lgs flags' h i l
    simp only [checkPowerList, Except.ok.injEq, Prod.mk.injEq] at h
    obtain ⟨rfl, -, rfl⟩ := h
    simp [projKinds, altSteps]
  | cons pr rest ih =>
    obtain ⟨srv, ps⟩ := pr
    intro flags evs lgs flags' h i l
    simp only [checkPowerList] at h
    cases hg : getNode flags (indexOfServer servers srv) with
    | none => simp [hg] at h
    | some d =>
      simp only [hg] at h
      cases hcp : check_power cn ps (indexOfServer servers srv) d with
      | error e0 => simp [hcp] at h
      | ok t1 =>
        obtain ⟨ev1, lg1, d'⟩ := t1
        simp only [hcp] at h
        cases hrec : checkPowerList cn servers rest
            (setNode flags (indexOfServer servers srv) d') with
        | error e0 => simp [hrec] at h
        | ok t2 =>
          obtain ⟨ev2, lg2, fl2⟩ := t2
          simp only [hrec] at h
          simp only [Except.ok.injEq, Prod.mk.injEq] at h
          obtain ⟨rfl, -, rfl⟩ := h
          rw [projKinds_append, altSteps_append]
          by_cases hi : i = indexOfServer servers srv
          · rw [← hi] at hg hcp hrec
            have h1 : powerFlag flags i l = psLookup d l := by
              simp [powerFlag, hg]
            have hset : getNode (setNode flags i d') i = some d' :=
              getNode_setNode_self flags i d' d hg
            rw [h1, check_power_alt cn ps i d ev1 lg1 d' hcp l]
            have hflag : powerFlag (setNode flags i d') i l = psLookup d' l := by
              simp [powerFlag, hset]
            have hrest := ih _ _ _ _ hrec i l
            rw [hflag] at hrest
            simpa using hrest
          · have hproj : projKinds (.powerKey i l) ev1 = [] := by
              apply projKinds_nil_of
              intro e he
              rcases check_power_shape cn ps _ d ev1 lg1 d' hcp e he with
                ⟨m, rfl⟩ | ⟨m, rfl⟩ <;>
                simp [psFailEvent, psClearEvent, keyMatches, hi]
            rw [hproj]
            have hflag : powerFlag (setNode flags (indexOfServer servers srv) d') i l
                = powerFlag flags i l := by
              simp [powerFlag, getNode_setNode_ne flags i _ d' hi]
            have hrest := ih _ _ _ _ hrec i l
            rw [hflag] at hrest
            simpa [altSteps] using hrest

theorem powerStage_shape (inp : TickInput) (st : WorkerState)
    (evP : List Event) (lgP : List String) (flags' : List PSDict)
    (h : powerStage inp st = .ok (evP, lgP, flags')) :
    ∀ e ∈ evP, ∃ j, isPowerEventOf inp.clusterName j e := by
  unfold powerStage at h
  by_cases hipmi : inp.ipmiEnabled
  · rw [if_pos hipmi] at h
    exact checkPowerList_shape _ _ _ _ _ _ _ h
  · rw [if_neg hipmi] at h
    simp only [Except.ok.injEq, Prod.mk.injEq] at h
    obtain ⟨rfl, -, rfl⟩ := h
    simp

theorem powerStage_alt (inp : TickInput) (st : WorkerState)
    (evP : List Event) (lgP : List String) (flags' : List PSDict)
    (h : powerStage inp st = .ok (evP, lgP, flags')) (i : Nat) (l : String) :
    altSteps (powerFlag st.notified_power_supply_failure i l)
        (projKinds (.powerKey i l) evP)
      = some (powerFlag flags' i l) := by
  unfold powerStage at h
  by_cases hipmi : inp.ipmiEnabled
  · rw [if_pos hipmi] at h
    exact checkPowerList_alt _ _ _ _ _ _ _ h i l
  · rw [if_neg hipmi] at h
    simp only [Except.ok.injEq, Prod.mk.injEq] at h
    obtain ⟨rfl, -, rfl⟩ := h
    simp [projKinds, altSteps]

theorem powerStage_proj_nil (inp : TickInput) (st : WorkerState)
    (evP : List Event) (lgP : List String) (flags' : List PSDict)
    (h : powerStage inp st = .ok (evP, lgP, flags'))
    (k : TrackKey) (hk : ∀ i m, k ≠ .powerKey i m) :
    projKinds k evP = [] := by
  apply projKinds_nil_of
  intro e he
  rcases powerStage_shape inp st evP lgP flags' h e he with ⟨j, hj⟩
  rcases hj with ⟨m, rfl⟩ | ⟨m, rfl⟩ <;>
    exact keyMatches_power_false k j m (hk j)

theorem check_nodes_shape (offline : List String) (b : Bool) :
    ∀ e ∈ (check_nodes offline b).1, e.key = .nodeAgg := by
  intro e he
  by_cases h0 : 0 < offline.length <;> cases b <;>
    simp [check_nodes, h0, nodesAlertEvent, nodesClearEvent] at he <;>
    simp [he, nodesAlertEvent, nodesClearEvent]

theorem check_nodes_alt (offline : List String) (b : Bool) :
    altSteps (some b) (projKinds .nodeConn (check_nodes offline b).1)
      = some (some (check_nodes offline b).2) := by
  by_cases h0 : 0 < offline.length <;> cases b <;>
    simp [check_nodes, h0, projKinds, keyMatches, nodesAlertEvent,
      nodesClearEvent, altSteps]

theorem check_drives_shape (dead : List (String × String)) (b : Bool) :
    ∀ e ∈ (check_drives dead b).1, e.key = .driveAgg := by
  intro e he
  by_cases h0 : 0 < dead.length <;> cases b <;>
    simp [check_drives, h0, drivesAlertEvent, drivesClearEvent] at he <;>
    simp [he, drivesAlertEvent, drivesClearEvent]

theorem check_drives_alt (dead : List (String × String)) (b : Bool) :
    altSteps (some b) (projKinds .driveKey (check_drives dead b).1)
      = some (some (check_drives dead b).2) := by
  by_cases h0 : 0 < dead.length <;> cases b <;>
    simp [check_drives, h0, projKinds, keyMatches, drivesAlertEvent,
      drivesClearEvent, altSteps]

theorem check_nodes_mem (offline : List String) (b : Bool) :
    ∀ e ∈ (check_nodes offline b).1,
      e = nodesAlertEvent offline ∨ e = nodesClearEvent := by
  intro e he
  by_cases h0 : 0 < offline.length <;> cases b <;>
    simp [check_nodes, h0] at he <;> simp [he]

theorem check_drives_mem (dead : List (String × String)) (b : Bool) :
    ∀ e ∈ (check_drives dead b).1,
      e = drivesAlertEvent dead ∨ e = drivesClearEvent := by
  intro e he
  by_cases h0 : 0 < dead.length <;> cases b <;>
    simp [check_drives, h0] at he <;> simp [he]

theorem tick_alt (inp : TickInput) (st : WorkerState) (r : TickResult)
    (h : check_cluster_status inp st = .ok r) (k : TrackKey) :
    altSteps (flagOf st k) (projKinds k r.events) = some (flagOf r.state k) := by
  simp only [check_cluster_status] at h
  cases hps : powerStage inp st with
  | error e0 => simp [hps] at h
  | ok t =>
    obtain ⟨evP, lgP, flags'⟩ := t
    simp only [hps] at h
    by_cases hcr : inp.credsPresent
    · rw [if_pos hcr] at h
      simp only [Except.ok.injEq] at h
      subst h
      cases k with
      | nodeConn =>
        have hP := powerStage_proj_nil inp st evP lgP flags' hps .nodeConn
          (by intro i m hne; cases hne)
        have hD : projKinds .nodeConn
            (check_drives inp.deadDrives st.notified_dead_drives).1 = [] := by
          apply projKinds_nil_of
          intro e he
          rw [check_drives_shape inp.deadDrives st.notified_dead_drives e he]
          rfl
        simp only [flagOf, projKinds_append, hP, hD, List.nil_append,
          List.append_nil]
        exact check_nodes_alt inp.offlineNodes st.notified_offline
      | driveKey =>
        have hP := powerStage_proj_nil inp st evP lgP flags' hps .driveKey
          (by intro i m hne; cases hne)
        have hN : projKinds .driveKey
            (check_nodes inp.offlineNodes st.notified_offline).1 = [] := by
          apply projKinds_nil_of
          intro e he
          rw [check_nodes_shape inp.offlineNodes st.notified_offline e he]
          rfl
        simp only [flagOf, projKinds_append, hP, hN, List.nil_append,
          List.append_nil]
        exact check_drives_alt inp.deadDrives st.notified_dead_drives
      | powerKey i l =>
        have hN : projKinds (.powerKey i l)
            (check_nodes inp.offlineNodes st.notified_offline).1 = [] := by
          apply projKinds_nil_of
          intro e he
          rw [check_nodes_shape inp.offlineNodes st.notified_offline e he]
          rfl
        have hD : projKinds (.powerKey i l)
            (check_drives inp.deadDrives st.notified_dead_drives).1 = [] := by
          apply projKinds_nil_of
          intro e he
          rw [check_drives_shape inp.deadDrives st.notified_dead_drives e he]
          rfl
        simp only [flagOf, projKinds_append, hN, hD, List.append_nil]
        exact powerStage_alt inp st evP lgP flags' hps i l
    · rw [if_neg hcr] at h
      by_cases hoff : st.notified_offline = false
      · rw [if_pos hoff] at h
        simp only [Except.ok.injEq] at h
        subst h
        cases k with
        | nodeConn =>
          have hP := powerStage_proj_nil inp st evP lgP flags' hps .nodeConn
            (by intro i m hne; cases hne)
          simp only [flagOf, projKinds_append, hP, List.nil_append, hoff]
          simp [projKinds, keyMatches, clusterOfflineEvent, altSteps]
        | driveKey =>
          have hP := powerStage_proj_nil inp st evP lgP flags' hps .driveKey
            (by intro i m hne; cases hne)
          have hC : projKinds .driveKey [clusterOfflineEvent] = [] := rfl
          simp only [flagOf, projKinds_append, hP, hC, List.nil_append,
            List.append_nil, altSteps]
        | powerKey i l =>
          have hC : projKinds (.powerKey i l) [clusterOfflineEvent] = [] := by
            simp [projKinds, keyMatches, clusterOfflineEvent]
          simp only [flagOf, projKinds_append, hC, List.append_nil]
          exact powerStage_alt inp st evP lgP flags' hps i l
      · rw [if_neg hoff] at h
        simp only [Except.ok.injEq] at h
        subst h
        cases k with
        | nodeConn =>
          have hP := powerStage_proj_nil inp st evP lgP flags' hps .nodeConn
            (by intro i m hne; cases hne)
          simp only [flagOf, hP, altSteps]
        | driveKey =>
          have hP := powerStage_proj_nil inp st evP lgP flags' hps .driveKey
            (by intro i m hne; cases hne)
          simp only [flagOf, hP, altSteps]
        | powerKey i l =>
          simp only [flagOf]
          exact powerStage_alt inp st evP lgP flags' hps i l

theorem tick_shape (inp : TickInput) (st : WorkerState) (r : TickResult)
    (h : check_cluster_status inp st = .ok r) :
    ∀ e ∈ r.events, eventShape inp e := by
  simp only [check_cluster_status] at h
  cases hps : powerStage inp st with
  | error e0 => simp [hps] at h
  | ok t =>
    obtain ⟨evP, lgP, flags'⟩ := t
    simp only [hps] at h
    have hPshape : ∀ e ∈ evP, eventShape inp e := by
      intro e he
      rcases powerStage_shape inp st evP lgP flags' hps e he with ⟨j, hj⟩
      rcases hj with ⟨m, rfl⟩ | ⟨m, rfl⟩
      · exact Or.inr (Or.inr (Or.inr (Or.inr (Or.inr (Or.inl ⟨j, m, rfl⟩)))))
      · exact Or.inr (Or.inr (Or.inr (Or.inr (Or.inr (Or.inr ⟨j, m, rfl⟩)))))
    by_cases hcr : inp.credsPresent
    · rw [if_pos hcr] at h
      simp only [Except.ok.injEq] at h
      subst h
      intro e he
      simp only [List.mem_append] at he
      rcases he with (heP | heN) | heD
      · exact hPshape e heP
      · rcases check_nodes_mem inp.offlineNodes st.notified_offline e heN with
          rfl | rfl
        · exact Or.inl rfl
        · exact Or.inr (Or.inl rfl)
      · rcases check_drives_mem inp.deadDrives st.notified_dead_drives e heD with
          rfl | rfl
        · exact Or.inr (Or.inr (Or.inl rfl))
        · exact Or.inr (Or.inr (Or.inr (Or.inl rfl)))
    · rw [if_neg hcr] at h
      by_cases hoff : st.notified_offline = false
      · rw [if_pos hoff] at h
        simp only [Except.ok.injEq] at h
        subst h
        intro e he
        simp only [List.mem_append, List.mem_singleton] at he
        rcases he with heP | rfl
        · exact hPshape e heP
        · exact Or.inr (Or.inr (Or.inr (Or.inr (Or.inl rfl))))
      · rw [if_neg hoff] at h
        simp only [Except.ok.injEq] at h
        subst h
        intro e he
        exact hPshape e he

theorem runTicks_alt (inps : List TickInput) :
    ∀ (st : WorkerState) (evss : List (List Event)) (st' : WorkerState),
      runTicks st inps = .ok (evss, st') →
      ∀ k : TrackKey,
        altSteps (flagOf st k) (projKinds k evss.flatten) = some (flagOf st' k) := by
  induction inps with
  | nil =>
    intro st evss st' h k
    simp only [runTicks, Except.ok.injEq, Prod.mk.injEq] at h
    obtain ⟨rfl, rfl⟩ := h
    simp [projKinds, altSteps]
  | cons inp rest ih =>
    intro st evss st' h k
    simp only [runTicks] at h
    cases htick : check_cluster_status inp st with
    | error e0 => simp [htick] at h
    | ok r =>
      simp only [htick] at h
      cases hrec : runTicks r.state rest with
      | error e0 => simp [hrec] at h
      | ok p =>
        obtain ⟨evss0, st0⟩ := p
        simp only [hrec, Except.ok.injEq, Prod.mk.injEq] at h
        obtain ⟨rfl, rfl⟩ := h
        have hjoin : (r.events :: evss0).flatten = r.events ++ evss0.flatten := by
          simp
        rw [hjoin, projKinds_append, altSteps_append, tick_alt inp st r htick k]
        simpa using ih r.state evss0 st0 hrec k

theorem altSteps_alternating (ks : List EvKind) :
    ∀ (b : Bool) (res : Option Bool), altSteps (some b) ks = some res →
      ∀ (i : Nat) (h : i < ks.length),
        ks.get ⟨i, h⟩
          = if (i + b.toNat) % 2 = 0 then .alert else .clear := by
  induction ks with
  | nil => intro b res hst i h; exact absurd h (by simp)
  | cons k ks ih =>
    intro b res hst i h
    cases b with
    | false =>
      cases k with
      | clear => simp [altSteps] at hst
      | alert =>
        cases i with
        | zero => simp
        | succ n =>
          simp only [altSteps] at hst
          have h2 := ih true res hst n (Nat.lt_of_succ_lt_succ h)
          simpa [Bool.toNat_true, Bool.toNat_false] using h2
    | true =>
      cases k with
      | alert => simp [altSteps] at hst
      | clear =>
        cases i with
        | zero => simp
        | succ n =>
          simp only [altSteps] at hst
          have h2 := ih false res hst n (Nat.lt_of_succ_lt_succ h)
          have hmod : (n + 1 + 1) % 2 = n % 2 := by omega
          simp only [List.get_cons_succ, Bool.toNat_true, hmod]
          simpa [Bool.toNat_false] using h2

theorem tick_nodeConn_unhealthy (inp : TickInput) (st : WorkerState)
    (r : TickResult) (h : check_cluster_status inp st = .ok r)
    (hun : inp.credsPresent = false ∨ 0 < inp.offlineNodes.length) :
    (st.notified_offline = false →
      projKinds .nodeConn r.events = [.alert] ∧ r.state.notified_offline = true) ∧
    (st.notified_offline = true →
      projKinds .nodeConn r.events = [] ∧ r.state.notified_offline = true) := by
  simp only [check_cluster_status] at h
  cases hps : powerStage inp st with
  | error e0 => simp [hps] at h
  | ok t =>
    obtain ⟨evP, lgP, flags'⟩ := t
    simp only [hps] at h
    have hP := powerStage_proj_nil inp st evP lgP flags' hps .nodeConn
      (by intro i m hne; cases hne)
    by_cases hcr : inp.credsPresent
    · rw [if_pos hcr] at h
      simp only [Except.ok.injEq] at h
      subst h
      have hlen : 0 < inp.offlineNodes.length := by
        rcases hun with hun | hun
        · rw [hcr] at hun; cases hun
        · exact hun
      have hD : projKinds .nodeConn
          (check_drives inp.deadDrives st.notified_dead_drives).1 = [] := by
        apply projKinds_nil_of
        intro e he
        rw [check_drives_shape inp.deadDrives st.notified_dead_drives e he]
        rfl
      constructor
      · intro hf
        have hN : (check_nodes inp.offlineNodes st.notified_offline).1
            = [nodesAlertEvent inp.offlineNodes] := by
          simp [check_nodes, hlen, hf]
        constructor
        · rw [projKinds_append, projKinds_append, hP, hN, hD]
          simp [projKinds, keyMatches, nodesAlertEvent]
        · simp [check_nodes, hlen, hf]
      · intro hf
        have hN : (check_nodes inp.offlineNodes st.notified_offline).1 = [] := by
          simp [check_nodes, hlen, hf]
        constructor
        · rw [projKinds_append, projKinds_append, hP, hN, hD]
          rfl
        · simp [check_nodes, hlen, hf]
    · rw [if_neg hcr] at h
      by_cases hoff : st.notified_offline = false
      · rw [if_pos hoff] at h
        simp only [Except.ok.injEq] at h
        subst h
        refine ⟨fun _ => ⟨?_, rfl⟩, fun hf => ?_⟩
        · rw [projKinds_append, hP]
          simp [projKinds, keyMatches, clusterOfflineEvent]
        · rw [hoff] at hf; cases hf
      · rw [if_neg hoff] at h
        simp only [Except.ok.injEq] at h
        subst h
        refine ⟨fun hf => absurd hf hoff, fun hf => ⟨hP, hf⟩⟩

theorem runTicks_nodeConn_steady (inps : List TickInput) :
    ∀ (st : WorkerState) (evss : List (List Event)) (st' : WorkerState),
      runTicks st inps = .ok (evss, st') →
      st.notified_offline = true →
      (∀ inp ∈ inps, inp.credsPresent = false ∨ 0 < inp.offlineNodes.length) →
      projKinds .nodeConn evss.flatten = [] ∧ st'.notified_offline = true := by
  induction inps with
  | nil =>
    intro st evss st' h hf hall
    simp only [runTicks, Except.ok.injEq, Prod.mk.injEq] at h
    obtain ⟨rfl, rfl⟩ := h
    exact ⟨rfl, hf⟩
  | cons inp rest ih =>
    intro st evss st' h hf hall
    simp only [runTicks] at h
    cases htick : check_cluster_status inp st with
    | error e0 => simp [htick] at h
    | ok r =>
      simp only [htick] at h
      cases hrec : runTicks r.state rest with
      | error e0 => simp [hrec] at h
      | ok p =>
        obtain ⟨evss0, st0⟩ := p
        simp only [hrec, Except.ok.injEq, Prod.mk.injEq] at h
        obtain ⟨rfl, rfl⟩ := h
        have h1 := (tick_nodeConn_unhealthy inp st r htick
          (hall inp (List.mem_cons_self inp rest))).2 hf
        have h2 := ih r.state evss0 st0 hrec h1.2
          (fun i hi => hall i (List.mem_cons_of_mem inp hi))
        refine ⟨?_, h2.2⟩
        have hjoin : (r.events :: evss0).flatten = r.events ++ evss0.flatten := by
          simp
        rw [hjoin, projKinds_append, h1.1, h2.1]
        rfl

theorem projKinds_all_alert (key : TrackKey) (evs : List Event)
    (h : ∀ e ∈ evs, e.kind = EvKind.alert) :
    ∀ k ∈ projKinds key evs, k = EvKind.alert := by
  intro k hk
  simp only [projKinds, List.mem_map] at hk
  obtain ⟨e, he, rfl⟩ := hk
  exact h e (List.mem_of_mem_filter he)

theorem projKinds_all_clear (key : TrackKey) (evs : List Event)
    (h : ∀ e ∈ evs, e.kind = EvKind.clear) :
    ∀ k ∈ projKinds key evs, k = EvKind.clear := by
  intro k hk
  simp only [projKinds, List.mem_map] at hk
  obtain ⟨e, he, rfl⟩ := hk
  exact h e (List.mem_of_mem_filter he)

theorem altSteps_alert_only_of_ne_false (ks : List EvKind)
    (hks : ∀ k ∈ ks, k = EvKind.alert) (b c : Option Bool)
    (hb : b ≠ some false) (h : altSteps b ks = some c) : ks = [] ∧ c = b := by
  cases ks with
  | nil =>
    simp only [altSteps, Option.some.injEq] at h
    exact ⟨rfl, h.symm⟩
  | cons k rest =>
    have hk := hks k (List.mem_cons_self k rest)
    subst hk
    cases b with
    | none => simp [altSteps] at h
    | some bb =>
      cases bb with
      | false => exact absurd rfl hb
      | true => simp [altSteps] at h

theorem altSteps_alert_only_of_false (ks : List EvKind)
    (hks : ∀ k ∈ ks, k = EvKind.alert) (c : Option Bool)
    (h : altSteps (some false) ks = some c) :
    (ks = [] ∧ c = some false) ∨ (ks = [EvKind.alert] ∧ c = some true) := by
  cases ks with
  | nil =>
    simp only [altSteps, Option.some.injEq] at h
    exact Or.inl ⟨rfl, h.symm⟩
  | cons k rest =>
    have hk := hks k (List.mem_cons_self k rest)
    subst hk
    simp only [altSteps] at h
    have hrest := altSteps_alert_only_of_ne_false rest
      (fun k2 hk2 => hks k2 (List.mem_cons_of_mem _ hk2)) (some true) c
      (by simp) h
    exact Or.inr ⟨by rw [hrest.1], hrest.2⟩

theorem altSteps_clear_only_of_ne_true (ks : List EvKind)
    (hks : ∀ k ∈ ks, k = EvKind.clear) (b c : Option Bool)
    (hb : b ≠ some true) (h : altSteps b ks = some c) : ks = [] ∧ c = b := by
  cases ks with
  | nil =>
    simp only [altSteps, Option.some.injEq] at h
    exact ⟨rfl, h.symm⟩
  | cons k rest =>
    have hk := hks k (List.mem_cons_self k rest)
    subst hk
    cases b with
    | none => simp [altSteps] at h
    | some bb =>
      cases bb with
      | true => exact absurd rfl hb
      | false => simp [altSteps] at h

theorem altSteps_clear_only_of_true (ks : List EvKind)
    (hks : ∀ k ∈ ks, k = EvKind.clear) (c : Option Bool)
    (h : altSteps (some true) ks = some c) :
    (ks = [] ∧ c = some true) ∨ (ks = [EvKind.clear] ∧ c = some false) := by
  cases ks with
  | nil =>
    simp only [altSteps, Option.some.injEq] at h
    exact Or.inl ⟨rfl, h.symm⟩
  | cons k rest =>
    have hk := hks k (List.mem_cons_self k rest)
    subst hk
    simp only [altSteps] at h
    have hrest := altSteps_clear_only_of_ne_true rest
      (fun k2 hk2 => hks k2 (List.mem_cons_of_mem _ hk2)) (some false) c
      (by simp) h
    exact Or.inr ⟨by rw [hrest.1], hrest.2⟩

theorem processFail_mono (cn : String) (nid : Nat) (labels : List String) :
    ∀ (d : PSDict) (evs : List Event) (d' : PSDict),
      processFail cn nid labels d = .ok (evs, d') →
      ∀ l, psLookup d l = some true → psLookup d' l = some true := by
  induction labels with
  | nil =>
    intro d evs d' h l hl
    simp only [processFail, Except.ok.injEq, Prod.mk.injEq] at h
    obtain ⟨rfl, rfl⟩ := h
    exact hl
  | cons ps rest ih =>
    intro d evs d' h l hl
    cases hps : psLookup d ps with
    | none => simp [processFail, hps] at h
    | some b =>
      cases b with
      | true =>
        simp only [processFail, hps] at h
        exact ih _ _ _ h l hl
      | false =>
        simp only [processFail, hps] at h
        cases hrec : processFail cn nid rest (psSet d ps true) with
        | error e0 => simp [hrec] at h
        | ok p =>
          obtain ⟨evs0, d0⟩ := p
          simp only [hrec, Except.ok.injEq, Prod.mk.injEq] at h
          obtain ⟨rfl, rfl⟩ := h
          apply ih _ _ _ hrec l
          by_cases hlps : l = ps
          · subst hlps
            exact psLookup_psSet_self d l false true hps
          · rw [psLookup_psSet_ne d l ps true hlps]
            exact hl

theorem processFail_final_true (cn : String) (nid : Nat) (labels : List String) :
    ∀ (d : PSDict) (evs : List Event) (d' : PSDict),
      processFail cn nid labels d = .ok (evs, d') →
      ∀ l, l ∈ labels → psLookup d' l = some true := by
  induction labels with
  | nil =>
    intro d evs d' h l hl
    simp at hl
  | cons ps rest ih =>
    intro d evs d' h l hl
    cases hps : psLookup d ps with
    | none => simp [processFail, hps] at h
    | some b =>
      cases b with
      | true =>
        simp only [processFail, hps] at h
        rcases List.mem_cons.mp hl with rfl | hl'
        · exact processFail_mono cn nid rest _ _ _ h l hps
        · exact ih _ _ _ h l hl'
      | false =>
        simp only [processFail, hps] at h
        cases hrec : processFail cn nid rest (psSet d ps true) with
        | error e0 => simp [hrec] at h
        | ok p =>
          obtain ⟨evs0, d0⟩ := p
          simp only [hrec, Except.ok.injEq, Prod.mk.injEq] at h
          obtain ⟨rfl, rfl⟩ := h
          rcases List.mem_cons.mp hl with rfl | hl'
          · exact processFail_mono cn nid rest _ _ _ hrec l
              (psLookup_psSet_self d l false true hps)
          · exact ih _ _ _ hrec l hl'

theorem processFail_not_mem (cn : String) (nid : Nat) (labels : List String) :
    ∀ (d : PSDict) (evs : List Event) (d' : PSDict),
      processFail cn nid labels d = .ok (evs, d') →
      ∀ l, l ∉ labels → psLookup d' l = psLookup d l := by
  induction labels with
  | nil =>
    intro d evs d' h l hl
    simp only [processFail, Except.ok.injEq, Prod.mk.injEq] at h
    obtain ⟨rfl, rfl⟩ := h
    rfl
  | cons ps rest ih =>
    intro d evs d' h l hl
    have hlps : l ≠ ps := fun hc => hl (hc ▸ List.mem_cons_self ps rest)
    have hlrest : l ∉ rest := fun hc => hl (List.mem_cons_of_mem ps hc)
    cases hps : psLookup d ps with
    | none => simp [processFail, hps] at h
    | some b =>
      cases b with
      | true =>
        simp only [processFail, hps] at h
        exact ih _ _ _ h l hlrest
      | false =>
        simp only [processFail, hps] at h
        cases hrec : processFail cn nid rest (psSet d ps true) with
        | error e0 => simp [hrec] at h
        | ok p =>
          obtain ⟨evs0, d0⟩ := p
          simp only [hrec, Except.ok.injEq, Prod.mk.injEq] at h
          obtain ⟨rfl, rfl⟩ := h
          rw [ih _ _ _ hrec l hlrest]
          exact psLookup_psSet_ne d l ps true hlps

theorem processGood_not_mem (cn : String) (nid : Nat) (labels : List String) :
    ∀ (d : PSDict) (evs : List Event) (d' : PSDict),
      processGood cn nid labels d = .ok (evs, d') →
      ∀ l, l ∉ labels → psLookup d' l = psLookup d l := by
  induction labels with
  | nil =>
    intro d evs d' h l hl
    simp only [processGood, Except.ok.injEq, Prod.mk.injEq] at h
    obtain ⟨rfl, rfl⟩ := h
    rfl
  | cons ps rest ih =>
    intro d evs d' h l hl
    have hlps : l ≠ ps := fun hc => hl (hc ▸ List.mem_cons_self ps rest)
    have hlrest : l ∉ rest := fun hc => hl (List.mem_cons_of_mem ps hc)
    cases hps : psLookup d ps with
    | none => simp [processGood, hps] at h
    | some b =>
      cases b with
      | false =>
        simp only [processGood, hps] at h
        exact ih _ _ _ h l hlrest
      | true =>
        simp only [processGood, hps] at h
        cases hrec : processGood cn nid rest (psSet d ps false) with
        | error e0 => simp [hrec] at h
        | ok p =>
          obtain ⟨evs0, d0⟩ := p
          simp only [hrec, Except.ok.injEq, Prod.mk.injEq] at h
          obtain ⟨rfl, rfl⟩ := h
          rw [ih _ _ _ hrec l hlrest]
          exact psLookup_psSet_ne d l ps false hlps

theorem check_power_label (cn : String) (res : Option PowerStates) (nid : Nat)
    (d : PSDict) (evs : List Event) (lgs : List String) (d' : PSDict)
    (h : check_power cn res nid d = .ok (evs, lgs, d')) (l : String)
    (hng : resultClears res l = false) :
    (psLookup d l = some true →
      projKinds (.powerKey nid l) evs = [] ∧ psLookup d' l = some true) ∧
    (resultFails res l = true → psLookup d l = some false →
      projKinds (.powerKey nid l) evs = [EvKind.alert]
        ∧ psLookup d' l = some true) ∧
    (resultFails res l = false → psLookup d l = some false →
      projKinds (.powerKey nid l) evs = [] ∧ psLookup d' l = some false) := by
  cases res with
  | none =>
    simp only [check_power, Except.ok.injEq, Prod.mk.injEq] at h
    obtain ⟨rfl, -, rfl⟩ := h
    exact ⟨fun hl => ⟨rfl, hl⟩, fun hf => by simp [resultFails] at hf,
           fun _ hl => ⟨rfl, hl⟩⟩
  | some ps =>
    have hgood : l ∉ ps.good := by
      simp only [resultClears, decide_eq_false_iff_not] at hng
      exact hng
    simp only [check_power] at h
    cases hF : processFail cn nid ps.fail d with
    | error e0 => simp [hF] at h
    | ok p1 =>
      obtain ⟨evF, d1⟩ := p1
      simp only [hF] at h
      cases hG : processGood cn nid ps.good d1 with
      | error e0 => simp [hG] at h
      | ok p2 =>
        obtain ⟨evG, d2⟩ := p2
        simp only [hG, Except.ok.injEq, Prod.mk.injEq] at h
        obtain ⟨rfl, -, rfl⟩ := h
        have hFalert : ∀ k ∈ projKinds (.powerKey nid l) evF,
            k = EvKind.alert := by
          apply projKinds_all_alert
          intro e he
          obtain ⟨m, rfl⟩ := processFail_shape cn nid ps.fail d evF d1 hF e he
          rfl
        have hGclear : ∀ k ∈ projKinds (.powerKey nid l) evG,
            k = EvKind.clear := by
          apply projKinds_all_clear
          intro e he
          obtain ⟨m, rfl⟩ := processGood_shape cn nid ps.good d1 evG d2 hG e he
          rfl
        have haltF := processFail_alt cn nid ps.fail d evF d1 hF l
        have haltG := processGood_alt cn nid ps.good d1 evG d2 hG l
        have hd2 : psLookup d2 l = psLookup d1 l :=
          processGood_not_mem cn nid ps.good d1 evG d2 hG l hgood
        rw [projKinds_append]
        refine ⟨fun hl => ?_, fun hf hl => ?_, fun hf hl => ?_⟩
        · have hd1 : psLookup d1 l = some true :=
            processFail_mono cn nid ps.fail d evF d1 hF l hl
          rw [hl] at haltF
          obtain ⟨hF1, -⟩ := altSteps_alert_only_of_ne_false _ hFalert _ _
            (by simp) haltF
          rw [hd1] at haltG hd2
          rcases altSteps_clear_only_of_true _ hGclear _ haltG with
            ⟨hG1, -⟩ | ⟨-, hG2⟩
          · exact ⟨by rw [hF1, hG1]; rfl, hd2⟩
          · rw [hG2] at hd2
            simp at hd2
        · have hfail : l ∈ ps.fail := by
            simp only [resultFails, decide_eq_true_eq] at hf
            exact hf
          have hd1 : psLookup d1 l = some true :=
            processFail_final_true cn nid ps.fail d evF d1 hF l hfail
          rw [hl] at haltF
          rcases altSteps_alert_only_of_false _ hFalert _ haltF with
            ⟨-, hF2⟩ | ⟨hF1, -⟩
          · rw [hd1] at hF2
            simp at hF2
          · rw [hd1] at haltG hd2
            rcases altSteps_clear_only_of_true _ hGclear _ haltG with
              ⟨hG1, -⟩ | ⟨-, hG2⟩
            · exact ⟨by simp [hF1, hG1], hd2⟩
            · rw [hG2] at hd2
              simp at hd2
        · have hnofail : l ∉ ps.fail := by
            simp only [resultFails, decide_eq_false_iff_not] at hf
            exact hf
          have hd1 : psLookup d1 l = psLookup d l :=
            processFail_not_mem cn nid ps.fail d evF d1 hF l hnofail
          rw [hl] at hd1
          rw [hl] at haltF
          rw [hd1] at haltG hd2
          rcases altSteps_alert_only_of_false _ hFalert _ haltF with
            ⟨hF1, -⟩ | ⟨-, hF2⟩
          · obtain ⟨hG1, -⟩ := altSteps_clear_only_of_ne_true _ hGclear _ _
              (by simp) haltG
            exact ⟨by rw [hF1, hG1]; rfl, hd2⟩
          · rw [hd1] at hF2
            simp at hF2

theorem checkPowerList_label_steady (cn : String) (servers : List String)
    (toProcess : List (String × Option PowerStates)) :
    ∀ (flags : List PSDict) (evs : List Event) (lgs : List String)
      (flags' : List PSDict),
      checkPowerList cn servers toProcess flags = .ok (evs, lgs, flags') →
      ∀ (i : Nat) (l : String),
        (∀ pr ∈ toProcess, indexOfServer servers pr.1 = i →
          resultClears pr.2 l = false) →
        powerFlag flags i l = some true →
        projKinds (.powerKey i l) evs = []
          ∧ powerFlag flags' i l = some true := by
  induction toProcess with
  | nil =>
    intro flags evs lgs flags' h i l hng hfl
    simp only [checkPowerList, Except.ok.injEq, Prod.mk.injEq] at h
    obtain ⟨rfl, -, rfl⟩ := h
    exact ⟨rfl, hfl⟩
  | cons pr rest ih =>
    obtain ⟨srv, res⟩ := pr
    intro flags evs lgs flags' h i l hng hfl
    simp only [checkPowerList] at h
    cases hg : getNode flags (indexOfServer servers srv) with
    | none => simp [hg] at h
    | some d =>
      simp only [hg] at h
      cases hcp : check_power cn res (indexOfServer servers srv) d with
      | error e0 => simp [hcp] at h
      | ok t1 =>
        obtain ⟨ev1, lg1, d'⟩ := t1
        simp only [hcp] at h
        cases hrec : checkPowerList cn servers rest
            (setNode flags (indexOfServer servers srv) d') with
        | error e0 => simp [hrec] at h
        | ok t2 =>
          obtain ⟨ev2, lg2, fl2⟩ := t2
          simp only [hrec, Except.ok.injEq, Prod.mk.injEq] at h
          obtain ⟨rfl, -, rfl⟩ := h
          rw [projKinds_append]
          have hngrest : ∀ pr ∈ rest, indexOfServer servers pr.1 = i →
              resultClears pr.2 l = false :=
            fun pr hpr => hng pr (List.mem_cons_of_mem _ hpr)
          by_cases hi : i = indexOfServer servers srv
          · rw [← hi] at hg hcp hrec
            have hdl : psLookup d l = some true := by
              simp only [powerFlag, hg] at hfl
              exact hfl
            have hng0 : resultClears res l = false :=
              hng (srv, res) (List.mem_cons_self _ _) hi.symm
            have h1 := (check_power_label cn res i d ev1 lg1 d' hcp l hng0).1 hdl
            have hfl' : powerFlag (setNode flags i d') i l = some true := by
              have hset := getNode_setNode_self flags i d' d hg
              simp only [powerFlag, hset]
              exact h1.2
            have h2 := ih _ _ _ _ hrec i l hngrest hfl'
            exact ⟨by rw [h1.1, h2.1]; rfl, h2.2⟩
          · have hproj : projKinds (.powerKey i l) ev1 = [] := by
              apply projKinds_nil_of
              intro e he
              rcases check_power_shape cn res _ d ev1 lg1 d' hcp e he with
                ⟨m, rfl⟩ | ⟨m, rfl⟩ <;>
                simp [psFailEvent, psClearEvent, keyMatches, hi]
            have hfl' : powerFlag (setNode flags (indexOfServer servers srv) d') i l
                = powerFlag flags i l := by
              simp [powerFlag, getNode_setNode_ne flags i _ d' hi]
            have h2 := ih _ _ _ _ hrec i l hngrest (by rw [hfl']; exact hfl)
            exact ⟨by rw [hproj, h2.1]; rfl, h2.2⟩

theorem checkPowerList_label_first (cn : String) (servers : List String)
    (toProcess : List (String × Option PowerStates)) :
    ∀ (flags : List PSDict) (evs : List Event) (lgs : List String)
      (flags' : List PSDict),
      checkPowerList cn servers toProcess flags = .ok (evs, lgs, flags') →
      ∀ (i : Nat) (l : String),
        (∃ pr ∈ toProcess, indexOfServer servers pr.1 = i ∧
          resultFails pr.2 l = true) →
        (∀ pr ∈ toProcess, indexOfServer servers pr.1 = i →
          resultClears pr.2 l = false) →
        powerFlag flags i l = some false →
        projKinds (.powerKey i l) evs = [EvKind.alert]
          ∧ powerFlag flags' i l = some true := by
  induction toProcess with
  | nil =>
    intro flags evs lgs flags' h i l hex hng hfl
    obtain ⟨pr, hpr, -⟩ := hex
    simp at hpr
  | cons pr rest ih =>
    obtain ⟨srv, res⟩ := pr
    intro flags evs lgs flags' h i l hex hng hfl
    simp only [checkPowerList] at h
    cases hg : getNode flags (indexOfServer servers srv) with
    | none => simp [hg] at h
    | some d =>
      simp only [hg] at h
      cases hcp : check_power cn res (indexOfServer servers srv) d with
      | error e0 => simp [hcp] at h
      | ok t1 =>
        obtain ⟨ev1, lg1, d'⟩ := t1
        simp only [hcp] at h
        cases hrec : checkPowerList cn servers rest
            (setNode flags (indexOfServer servers srv) d') with
        | error e0 => simp [hrec] at h
        | ok t2 =>
          obtain ⟨ev2, lg2, fl2⟩ := t2
          simp only [hrec, Except.ok.injEq, Prod.mk.injEq] at h
          obtain ⟨rfl, -, rfl⟩ := h
          rw [projKinds_append]
          have hngrest : ∀ pr ∈ rest, indexOfServer servers pr.1 = i →
              resultClears pr.2 l = false :=
            fun pr hpr => hng pr (List.mem_cons_of_mem _ hpr)
          by_cases hi : i = indexOfServer servers srv
          · rw [← hi] at hg hcp hrec
            have hdl : psLookup d l = some false := by
              simp only [powerFlag, hg] at hfl
              exact hfl
            have hng0 : resultClears res l = false :=
              hng (srv, res) (List.mem_cons_self _ _) hi.symm
            cases hfres : resultFails res l with
            | true =>
              have h1 := (check_power_label cn res i d ev1 lg1 d' hcp l
                hng0).2.1 hfres hdl
              have hfl' : powerFlag (setNode flags i d') i l = some true := by
                have hset := getNode_setNode_self flags i d' d hg
                simp only [powerFlag, hset]
                exact h1.2
              have h2 := checkPowerList_label_steady cn servers rest _ _ _ _
                hrec i l hngrest hfl'
              exact ⟨by simp [h1.1, h2.1], h2.2⟩
            | false =>
              have h1 := (check_power_label cn res i d ev1 lg1 d' hcp l
                hng0).2.2 hfres hdl
              have hfl' : powerFlag (setNode flags i d') i l = some false := by
                have hset := getNode_setNode_self flags i d' d hg
                simp only [powerFlag, hset]
                exact h1.2
              have hexrest : ∃ pr ∈ rest, indexOfServer servers pr.1 = i ∧
                  resultFails pr.2 l = true := by
                obtain ⟨pr, hpr, hidx, hfp⟩ := hex
                rcases List.mem_cons.mp hpr with rfl | hpr'
                · rw [hfres] at hfp
                  cases hfp
                · exact ⟨pr, hpr', hidx, hfp⟩
              have h2 := ih _ _ _ _ hrec i l hexrest hngrest hfl'
              exact ⟨by simp [h1.1, h2.1], h2.2⟩
          · have hproj : projKinds (.powerKey i l) ev1 = [] := by
              apply projKinds_nil_of
              intro e he
              rcases check_power_shape cn res _ d ev1 lg1 d' hcp e he with
                ⟨m, rfl⟩ | ⟨m, rfl⟩ <;>
                simp [psFailEvent, psClearEvent, keyMatches, hi]
            have hfl' : powerFlag (setNode flags (indexOfServer servers srv) d') i l
                = powerFlag flags i l := by
              simp [powerFlag, getNode_setNode_ne flags i _ d' hi]
            have hexrest : ∃ pr ∈ rest, indexOfServer servers pr.1 = i ∧
                resultFails pr.2 l = true := by
              obtain ⟨pr, hpr, hidx, hfp⟩ := hex
              rcases List.mem_cons.mp hpr with rfl | hpr'
              · exact absurd hidx.symm hi
              · exact ⟨pr, hpr', hidx, hfp⟩
            have h2 := ih _ _ _ _ hrec i l hexrest hngrest (by rw [hfl']; exact hfl)
            exact ⟨by simp [hproj, h2.1], h2.2⟩

theorem powerStage_label_steady (inp : TickInput) (st : WorkerState)
    (evP : List Event) (lgP : List String) (flags' : List PSDict)
    (h : powerStage inp st = .ok (evP, lgP, flags')) (i : Nat) (l : String)
    (hipmi : inp.ipmiEnabled = true)
    (hng : ∀ pr ∈ inp.ipmiServers.zip inp.powerResults,
      indexOfServer inp.ipmiServers pr.1 = i → resultClears pr.2 l = false)
    (hfl : powerFlag st.notified_power_supply_failure i l = some true) :
    projKinds (.powerKey i l) evP = [] ∧ powerFlag flags' i l = some true := by
  unfold powerStage at h
  rw [if_pos hipmi] at h
  exact checkPowerList_label_steady _ _ _ _ _ _ _ h i l hng hfl

theorem powerStage_label_first (inp : TickInput) (st : WorkerState)
    (evP : List Event) (lgP : List String) (flags' : List PSDict)
    (h : powerStage inp st = .ok (evP, lgP, flags')) (i : Nat) (l : String)
    (hipmi : inp.ipmiEnabled = true)
    (hex : ∃ pr ∈ inp.ipmiServers.zip inp.powerResults,
      indexOfServer inp.ipmiServers pr.1 = i ∧ resultFails pr.2 l = true)
    (hng : ∀ pr ∈ inp.ipmiServers.zip inp.powerResults,
      indexOfServer inp.ipmiServers pr.1 = i → resultClears pr.2 l = false)
    (hfl : powerFlag st.notified_power_supply_failure i l = some false) :
    projKinds (.powerKey i l) evP = [EvKind.alert]
      ∧ powerFlag flags' i l = some true := by
  unfold powerStage at h
  rw [if_pos hipmi] at h
  exact checkPowerList_label_first _ _ _ _ _ _ _ h i l hex hng hfl

theorem tick_power_unhealthy (inp : TickInput) (st : WorkerState)
    (r : TickResult) (h : check_cluster_status inp st = .ok r)
    (i : Nat) (l : String) (hobs : observesFail inp i l) :
    (flagOf st (.powerKey i l) = some false →
      projKinds (.powerKey i l) r.events = [EvKind.alert]
        ∧ flagOf r.state (.powerKey i l) = some true) ∧
    (flagOf st (.powerKey i l) = some true →
      projKinds (.powerKey i l) r.events = []
        ∧ flagOf r.state (.powerKey i l) = some true) := by
  obtain ⟨hipmi, hex, hng⟩ := hobs
  simp only [check_cluster_status] at h
  cases hps : powerStage inp st with
  | error e0 => simp [hps] at h
  | ok t =>
    obtain ⟨evP, lgP, flags'⟩ := t
    simp only [hps] at h
    by_cases hcr : inp.credsPresent
    · rw [if_pos hcr] at h
      simp only [Except.ok.injEq] at h
      subst h
      have hN : projKinds (.powerKey i l)
          (check_nodes inp.offlineNodes st.notified_offline).1 = [] := by
        apply projKinds_nil_of
        intro e he
        rw [check_nodes_shape inp.offlineNodes st.notified_offline e he]
        rfl
      have hD : projKinds (.powerKey i l)
          (check_drives inp.deadDrives st.notified_dead_drives).1 = [] := by
        apply projKinds_nil_of
        intro e he
        rw [check_drives_shape inp.deadDrives st.notified_dead_drives e he]
        rfl
      constructor
      · intro hfl
        have h1 := powerStage_label_first inp st evP lgP flags' hps i l
          hipmi hex hng (by simpa [flagOf] using hfl)
        refine ⟨?_, by simpa [flagOf] using h1.2⟩
        simp only [projKinds_append, hN, hD, h1.1, List.append_nil]
      · intro hfl
        have h1 := powerStage_label_steady inp st evP lgP flags' hps i l
          hipmi hng (by simpa [flagOf] using hfl)
        refine ⟨?_, by simpa [flagOf] using h1.2⟩
        simp only [projKinds_append, hN, hD, h1.1, List.append_nil]
    · rw [if_neg hcr] at h
      by_cases hoff : st.notified_offline = false
      · rw [if_pos hoff] at h
        simp only [Except.ok.injEq] at h
        subst h
        have hC : projKinds (.powerKey i l) [clusterOfflineEvent] = [] := by
          simp [projKinds, keyMatches, clusterOfflineEvent]
        constructor
        · intro hfl
          have h1 := powerStage_label_first inp st evP lgP flags' hps i l
            hipmi hex hng (by simpa [flagOf] using hfl)
          refine ⟨?_, by simpa [flagOf] using h1.2⟩
          simp only [projKinds_append, hC, h1.1, List.append_nil]
        · intro hfl
          have h1 := powerStage_label_steady inp st evP lgP flags' hps i l
            hipmi hng (by simpa [flagOf] using hfl)
          refine ⟨?_, by simpa [flagOf] using h1.2⟩
          simp only [projKinds_append, hC, h1.1, List.append_nil]
      · rw [if_neg hoff] at h
        simp only [Except.ok.injEq] at h
        subst h
        constructor
        · intro hfl
          have h1 := powerStage_label_first inp st evP lgP flags' hps i l
            hipmi hex hng (by simpa [flagOf] using hfl)
          exact ⟨by simpa using h1.1, by simpa [flagOf] using h1.2⟩
        · intro hfl
          have h1 := powerStage_label_steady inp st evP lgP flags' hps i l
            hipmi hng (by simpa [flagOf] using hfl)
          exact ⟨by simpa using h1.1, by simpa [flagOf] using h1.2⟩

theorem runTicks_power_steady (inps : List TickInput) :
    ∀ (st : WorkerState) (evss : List (List Event)) (st' : WorkerState),
      runTicks st inps = .ok (evss, st') →
      ∀ (i : Nat) (l : String),
        flagOf st (.powerKey i l) = some true →
        (∀ inp ∈ inps, observesFail inp i l) →
        projKinds (.powerKey i l) evss.flatten = []
          ∧ flagOf st' (.powerKey i l) = some true := by
  induction inps with
  | nil =>
    intro st evss st' h i l hf hall
    simp only [runTicks, Except.ok.injEq, Prod.mk.injEq] at h
    obtain ⟨rfl, rfl⟩ := h
    exact ⟨rfl, hf⟩
  | cons inp rest ih =>
    intro st evss st' h i l hf hall
    simp only [runTicks] at h
    cases htick : check_cluster_status inp st with
    | error e0 => simp [htick] at h
    | ok r =>
      simp only [htick] at h
      cases hrec : runTicks r.state rest with
      | error e0 => simp [hrec] at h
      | ok p =>
        obtain ⟨evss0, st0⟩ := p
        simp only [hrec, Except.ok.injEq, Prod.mk.injEq] at h
        obtain ⟨rfl, rfl⟩ := h
        have h1 := (tick_power_unhealthy inp st r htick i l
          (hall inp (List.mem_cons_self inp rest))).2 hf
        have h2 := ih r.state evss0 st0 hrec i l h1.2
          (fun j hj => hall j (List.mem_cons_of_mem inp hj))
        refine ⟨?_, h2.2⟩
        have hjoin : (r.events :: evss0).flatten = r.events ++ evss0.flatten := by
          simp
        rw [hjoin, projKinds_append, h1.1, h2.1]
        rfl

theorem tick_driveKey_unhealthy (inp : TickInput) (st : WorkerState)
    (r : TickResult) (h : check_cluster_status inp st = .ok r)
    (hcr : inp.credsPresent = true) (hlen : 0 < inp.deadDrives.length) :
    (st.notified_dead_drives = false →
      projKinds .driveKey r.events = [EvKind.alert]
        ∧ r.state.notified_dead_drives = true) ∧
    (st.notified_dead_drives = true →
      projKinds .driveKey r.events = []
        ∧ r.state.notified_dead_drives = true) := by
  simp only [check_cluster_status] at h
  cases hps : powerStage inp st with
  | error e0 => simp [hps] at h
  | ok t =>
    obtain ⟨evP, lgP, flags'⟩ := t
    simp only [hps] at h
    rw [if_pos hcr] at h
    simp only [Except.ok.injEq] at h
    subst h
    have hP := powerStage_proj_nil inp st evP lgP flags' hps .driveKey
      (by intro i m hne; cases hne)
    have hN : projKinds .driveKey
        (check_nodes inp.offlineNodes st.notified_offline).1 = [] := by
      apply projKinds_nil_of
      intro e he
      rw [check_nodes_shape inp.offlineNodes st.notified_offline e he]
      rfl
    constructor
    · intro hf
      have hD : (check_drives inp.deadDrives st.notified_dead_drives).1
          = [drivesAlertEvent inp.deadDrives] := by
        simp [check_drives, hlen, hf]
      constructor
      · simp only [projKinds_append, hP, hN, hD, List.nil_append,
          List.append_nil]
        simp [projKinds, keyMatches, drivesAlertEvent]
      · simp [check_drives, hlen, hf]
    · intro hf
      have hD : (check_drives inp.deadDrives st.notified_dead_drives).1
          = [] := by
        simp [check_drives, hlen, hf]
      constructor
      · simp only [projKinds_append, hP, hN, hD, List.nil_append,
          List.append_nil]
      · simp [check_drives, hlen, hf]

theorem runTicks_driveKey_steady (inps : List TickInput) :
    ∀ (st : WorkerState) (evss : List (List Event)) (st' : WorkerState),
      runTicks st inps = .ok (evss, st') →
      st.notified_dead_drives = true →
      (∀ inp ∈ inps, inp.credsPresent = true ∧ 0 < inp.deadDrives.length) →
      projKinds .driveKey evss.flatten = []
        ∧ st'.notified_dead_drives = true := by
  induction inps with
  | nil =>
    intro st evss st' h hf hall
    simp only [runTicks, Except.ok.injEq, Prod.mk.injEq] at h
    obtain ⟨rfl, rfl⟩ := h
    exact ⟨rfl, hf⟩
  | cons inp rest ih =>
    intro st evss st' h hf hall
    simp only [runTicks] at h
    cases htick : check_cluster_status inp st with
    | error e0 => simp [htick] at h
    | ok r =>
      simp only [htick] at h
      cases hrec : runTicks r.state rest with
      | error e0 => simp [hrec] at h
      | ok p =>
        obtain ⟨evss0, st0⟩ := p
        simp only [hrec, Except.ok.injEq, Prod.mk.injEq] at h
        obtain ⟨rfl, rfl⟩ := h
        have hhd := hall inp (List.mem_cons_self inp rest)
        have h1 := (tick_driveKey_unhealthy inp st r htick hhd.1 hhd.2).2 hf
        have h2 := ih r.state evss0 st0 hrec h1.2
          (fun j hj => hall j (List.mem_cons_of_mem inp hj))
        refine ⟨?_, h2.2⟩
        have hjoin : (r.events :: evss0).flatten = r.events ++ evss0.flatten := by
          simp
        rw [hjoin, projKinds_append, h1.1, h2.1]
        rfl

/-- Claim C1 counterexample: the node aggregate and cluster connectivity
are NOT independent entity keys. After a cluster-offline ALERT sets the
shared `notified_offline` flag (tick 1, credentials absent), the node
aggregate's first unhealthy observation (tick 2, node A offline) emits no
ALERT at all, contradicting "N consecutive unhealthy observations for the
same key produce exactly one ALERT, on the first" for the node-aggregate
key. -/
theorem C1_counterexample :
    runTicks (initWorkerState 0)
      [⟨false, "q", [], [], false, [], []⟩,
       ⟨false, "q", [], [], true, ["A"], []⟩]
      = .ok ([[clusterOfflineEvent], []], ⟨true, false, []⟩)
    ∧ (([[clusterOfflineEvent], []] : List (List Event)).flatten.filter
        (fun e => decide (e.key = EntityKey.nodeAgg))).length = 0 := by
  exact ⟨by decide, by decide⟩

/-- Claim C1 (amended): the source shares the single `notified_offline`
flag between the node aggregate and cluster connectivity, so those two
categories form one combined tracked key. For every tracked key (the
combined node/connectivity key, the drive aggregate, each
(node, power-supply-label) pair) whose stored flag starts CLEAR, over any
sequence of poll observations the emitted notifications for that key
strictly alternate ALERT, CLEAR, ALERT, ... — hence at most one ALERT is
emitted between entering CLEAR and the next transition to ALERTING, and a
CLEAR is emitted only when the stored state is ALERTING. Moreover, for
every tracked key, a nonempty run of consecutive unhealthy observations
of that key from CLEAR emits exactly one ALERT, on the first tick, and
none on the remaining ticks — where the key is observed unhealthy on a
tick when, for the combined key, credentials are absent or nodes are
offline; for the drive key, credentials are present and dead drives are
reported; and for a power key (i, l), IPMI is enabled and an endpoint
with node id i reports supply l failed while none reports it good. -/
theorem C1_tracked_key_dedup :
    (∀ (inps : List TickInput) (st : WorkerState) (evss : List (List Event))
        (st' : WorkerState) (k : TrackKey),
      runTicks st inps = .ok (evss, st') →
      flagOf st k = some false →
      ∀ (i : Nat) (h : i < (projKinds k evss.flatten).length),
        (projKinds k evss.flatten).get ⟨i, h⟩
          = if i % 2 = 0 then .alert else .clear) ∧
    (∀ (inp0 : TickInput) (rest : List TickInput) (st : WorkerState)
        (evss : List (List Event)) (st' : WorkerState),
      runTicks st (inp0 :: rest) = .ok (evss, st') →
      st.notified_offline = false →
      (∀ inp ∈ inp0 :: rest,
        inp.credsPresent = false ∨ 0 < inp.offlineNodes.length) →
      ∃ ev1 evrest, evss = ev1 :: evrest ∧
        projKinds .nodeConn ev1 = [.alert] ∧
        projKinds .nodeConn evrest.flatten = []) ∧
    (∀ (inp0 : TickInput) (rest : List TickInput) (st : WorkerState)
        (evss : List (List Event)) (st' : WorkerState),
      runTicks st (inp0 :: rest) = .ok (evss, st') →
      st.notified_dead_drives = false →
      (∀ inp ∈ inp0 :: rest,
        inp.credsPresent = true ∧ 0 < inp.deadDrives.length) →
      ∃ ev1 evrest, evss = ev1 :: evrest ∧
        projKinds .driveKey ev1 = [.alert] ∧
        projKinds .driveKey evrest.flatten = []) ∧
    (∀ (i : Nat) (l : String) (inp0 : TickInput) (rest : List TickInput)
        (st : WorkerState) (evss : List (List Event)) (st' : WorkerState),
      runTicks st (inp0 :: rest) = .ok (evss, st') →
      flagOf st (.powerKey i l) = some false →
      (∀ inp ∈ inp0 :: rest, observesFail inp i l) →
      ∃ ev1 evrest, evss = ev1 :: evrest ∧
        projKinds (.powerKey i l) ev1 = [.alert] ∧
        projKinds (.powerKey i l) evrest.flatten = []) := by
  refine ⟨?_, ?_, ?_, ?_⟩
  · intro inps st evss st' k hrun hclear i h
    have halt := runTicks_alt inps st evss st' hrun k
    rw [hclear] at halt
    have hres := altSteps_alternating (projKinds k evss.flatten) false
      (flagOf st' k) halt i h
    simpa using hres
  · intro inp0 rest st evss st' hrun hf hall
    simp only [runTicks] at hrun
    cases htick : check_cluster_status inp0 st with
    | error e0 => simp [htick] at hrun
    | ok r =>
      simp only [htick] at hrun
      cases hrec : runTicks r.state rest with
      | error e0 => simp [hrec] at hrun
      | ok p =>
        obtain ⟨evss0, st0⟩ := p
        simp only [hrec, Except.ok.injEq, Prod.mk.injEq] at hrun
        obtain ⟨rfl, rfl⟩ := hrun
        have h1 := (tick_nodeConn_unhealthy inp0 st r htick
          (hall inp0 (List.mem_cons_self inp0 rest))).1 hf
        have h2 := runTicks_nodeConn_steady rest r.state evss0 st0 hrec h1.2
          (fun i hi => hall i (List.mem_cons_of_mem inp0 hi))
        exact ⟨r.events, evss0, rfl, h1.1, h2.1⟩
  · intro inp0 rest st evss st' hrun hf hall
    simp only [runTicks] at hrun
    cases htick : check_cluster_status inp0 st with
    | error e0 => simp [htick] at hrun
    | ok r =>
      simp only [htick] at hrun
      cases hrec : runTicks r.state rest with
      | error e0 => simp [hrec] at hrun
      | ok p =>
        obtain ⟨evss0, st0⟩ := p
        simp only [hrec, Except.ok.injEq, Prod.mk.injEq] at hrun
        obtain ⟨rfl, rfl⟩ := hrun
        have hhd := hall inp0 (List.mem_cons_self inp0 rest)
        have h1 := (tick_driveKey_unhealthy inp0 st r htick hhd.1 hhd.2).1 hf
        have h2 := runTicks_driveKey_steady rest r.state evss0 st0 hrec h1.2
          (fun i hi => hall i (List.mem_cons_of_mem inp0 hi))
        exact ⟨r.events, evss0, rfl, h1.1, h2.1⟩
  · intro i l inp0 rest st evss st' hrun hf hall
    simp only [runTicks] at hrun
    cases htick : check_cluster_status inp0 st with
    | error e0 => simp [htick] at hrun
    | ok r =>
      simp only [htick] at hrun
      cases hrec : runTicks r.state rest with
      | error e0 => simp [hrec] at hrun
      | ok p =>
        obtain ⟨evss0, st0⟩ := p
        simp only [hrec, Except.ok.injEq, Prod.mk.injEq] at hrun
        obtain ⟨rfl, rfl⟩ := hrun
        have h1 := (tick_power_unhealthy inp0 st r htick i l
          (hall inp0 (List.mem_cons_self inp0 rest))).1 hf
        have h2 := runTicks_power_steady rest r.state evss0 st0 hrec i l h1.2
          (fun j hj => hall j (List.mem_cons_of_mem inp0 hj))
        exact ⟨r.events, evss0, rfl, h1.1, h2.1⟩

/-- Claim C1 witness: a concrete two-tick run (node A offline, then all
nodes back) whose combined-key projection is the alternating trace
[ALERT, CLEAR], and concrete steady-unhealthy two-tick runs for the
combined key, the drive key and a power key, each emitting one ALERT on
the first tick only. -/
theorem C1_tracked_key_dedup_witness :
    (projKinds TrackKey.nodeConn
        ([[nodesAlertEvent ["A"]], [nodesClearEvent]] :
          List (List Event)).flatten).get ⟨0, by decide⟩ = EvKind.alert
    ∧ (∃ ev1 evrest,
        ([[clusterOfflineEvent], []] : List (List Event)) = ev1 :: evrest ∧
        projKinds .nodeConn ev1 = [.alert] ∧
        projKinds .nodeConn evrest.flatten = [])
    ∧ (∃ ev1 evrest,
        ([[drivesAlertEvent [("SSD", "1")]], []] : List (List Event))
            = ev1 :: evrest ∧
        projKinds .driveKey ev1 = [.alert] ∧
        projKinds .driveKey evrest.flatten = [])
    ∧ (∃ ev1 evrest,
        ([[psFailEvent "q" 0 "PS1"], []] : List (List Event)) = ev1 :: evrest ∧
        projKinds (.powerKey 0 "PS1") ev1 = [.alert] ∧
        projKinds (.powerKey 0 "PS1") evrest.flatten = []) := by
  refine ⟨?_, ?_, ?_, ?_⟩
  · exact C1_tracked_key_dedup.1
      [⟨false, "q", [], [], true, ["A"], []⟩, ⟨false, "q", [], [], true, [], []⟩]
      (initWorkerState 0)
      [[nodesAlertEvent ["A"]], [nodesClearEvent]] ⟨false, false, []⟩
      .nodeConn (by decide) (by decide) 0 (by decide)
  · exact C1_tracked_key_dedup.2.1
      ⟨false, "q", [], [], false, [], []⟩ [⟨false, "q", [], [], false, [], []⟩]
      (initWorkerState 0)
      [[clusterOfflineEvent], []] ⟨true, false, []⟩
      (by decide) (by decide) (by decide)
  · exact C1_tracked_key_dedup.2.2.1
      ⟨false, "q", [], [], true, [], [("SSD", "1")]⟩
      [⟨false, "q", [], [], true, [], [("SSD", "1")]⟩]
      (initWorkerState 0)
      [[drivesAlertEvent [("SSD", "1")]], []] ⟨false, true, []⟩
      (by decide) (by decide) (by decide)
  · exact C1_tracked_key_dedup.2.2.2 0 "PS1"
      ⟨true, "q", ["s"], [some ⟨["PS1"], []⟩], true, [], []⟩
      [⟨true, "q", ["s"], [some ⟨["PS1"], []⟩], true, [], []⟩]
      (initWorkerState 1)
      [[psFailEvent "q" 0 "PS1"], []]
      ⟨false, false, [[("PS1", true), ("PS2", false)]]⟩
      (by decide) (by decide) (by decide)

/-- Claim C5: the offline-node sets {A}, {A,B}, {} over three consecutive
ticks emit exactly one ALERT on tick 1, whose body states the count 1 and
lists node A, no event on tick 2 although the set grew, and exactly one
CLEAR on tick 3. -/
theorem C5_node_aggregate_scenario :
    runTicks (initWorkerState 0)
      [⟨false, "q", [], [], true, ["A"], []⟩,
       ⟨false, "q", [], [], true, ["A", "B"], []⟩,
       ⟨false, "q", [], [], true, [], []⟩]
      = .ok ([[nodesAlertEvent ["A"]], [], [nodesClearEvent]], ⟨false, false, []⟩)
    ∧ (nodesAlertEvent ["A"]).body
        = "There are currently 1 nodes offline:\tNode A is currently offline."
    ∧ (nodesAlertEvent ["A"]).kind = .alert
    ∧ nodesClearEvent.kind = .clear := by
  exact ⟨by decide, by decide, rfl, rfl⟩

/-- Claim C6: power supplies are tracked per (node, label) key. With node
0 reporting PS1 failed / PS2 good on tick 1 and PS1 good / PS2 failed on
tick 2, tick 1 emits exactly the ALERT for key (0, PS1) and tick 2 emits
both the ALERT for key (0, PS2) and the CLEAR for key (0, PS1) (in that
order: the FAIL loop runs before the GOOD loop). -/
theorem C6_per_supply_scenario :
    runTicks (initWorkerState 1)
      [⟨true, "q", ["s"], [some ⟨["PS1"], ["PS2"]⟩], true, [], []⟩,
       ⟨true, "q", ["s"], [some ⟨["PS2"], ["PS1"]⟩], true, [], []⟩]
      = .ok ([[psFailEvent "q" 0 "PS1"],
              [psFailEvent "q" 0 "PS2", psClearEvent "q" 0 "PS1"]],
             ⟨false, false, [[("PS1", false), ("PS2", true)]]⟩)
    ∧ (psFailEvent "q" 0 "PS1").key = .power 0 "PS1"
    ∧ (psFailEvent "q" 0 "PS1").kind = .alert
    ∧ (psClearEvent "q" 0 "PS1").key = .power 0 "PS1"
    ∧ (psClearEvent "q" 0 "PS1").kind = .clear
    ∧ (psFailEvent "q" 0 "PS2").key = .power 0 "PS2"
    ∧ (psFailEvent "q" 0 "PS2").kind = .alert := by
  exact ⟨by decide, rfl, rfl, rfl, rfl, rfl, rfl⟩

/-- Claim C2 counterexample: on a tick where connectivity transitions to
ALERTING (credentials absent, flag unset), the monitor DOES evaluate
power supplies (the IPMI block runs first and here emits a POWER_SUPPLY
ALERT) and does NOT attempt a login (`loginAttempted = false`; the login
retry only happens on steady-offline ticks). -/
theorem C2_counterexample :
    check_cluster_status ⟨true, "q", ["s"], [some ⟨["PS1"], []⟩], false, [], []⟩
        ⟨false, false, [initPSDict]⟩
      = .ok { events := [psFailEvent "q" 0 "PS1", clusterOfflineEvent],
              logs := ["Error connecting to Qumulo Cluster REST Server"],
              loginAttempted := false,
              state := ⟨true, false, [[("PS1", true), ("PS2", false)]]⟩ }
    ∧ (psFailEvent "q" 0 "PS1").key = .power 0 "PS1" := by
  exact ⟨by decide, rfl⟩

/-- Claim C2 (amended): on a tick where connectivity is unhealthy
(credentials absent), node and drive evaluation is skipped, but
power-supply evaluation is NOT skipped — the IPMI block runs first,
unconditionally, and its events precede any connectivity event; the login
retry is attempted exactly on steady-offline ticks (flag already set),
which emit nothing, while the transition tick emits the cluster-offline
event and attempts no login. After the tick the shared offline flag is
set. -/
theorem C2_offline_tick (inp : TickInput) (st : WorkerState) (r : TickResult)
    (hcr : inp.credsPresent = false)
    (h : check_cluster_status inp st = .ok r) :
    (∀ e ∈ r.events, e.key ≠ EntityKey.nodeAgg ∧ e.key ≠ EntityKey.driveAgg) ∧
    r.loginAttempted = st.notified_offline ∧
    (∃ evP lgP flags', powerStage inp st = .ok (evP, lgP, flags') ∧
      r.events = evP ++ (if st.notified_offline = false
                         then [clusterOfflineEvent] else []) ∧
      r.state.notified_power_supply_failure = flags') ∧
    r.state.notified_offline = true := by
  simp only [check_cluster_status] at h
  cases hps : powerStage inp st with
  | error e0 => simp [hps] at h
  | ok t =>
    obtain ⟨evP, lgP, flags'⟩ := t
    simp only [hps] at h
    rw [if_neg (by rw [hcr]; intro hc; cases hc)] at h
    have hPkeys : ∀ e ∈ evP,
        e.key ≠ EntityKey.nodeAgg ∧ e.key ≠ EntityKey.driveAgg := by
      intro e he
      rcases powerStage_shape inp st evP lgP flags' hps e he with ⟨j, hj⟩
      rcases hj with ⟨m, rfl⟩ | ⟨m, rfl⟩ <;>
        exact ⟨(by intro hc; cases hc), (by intro hc; cases hc)⟩
    by_cases hoff : st.notified_offline = false
    · rw [if_pos hoff] at h
      simp only [Except.ok.injEq] at h
      subst h
      refine ⟨?_, by simp [hoff], ?_, rfl⟩
      · intro e he
        simp only [List.mem_append, List.mem_singleton] at he
        rcases he with he | rfl
        · exact hPkeys e he
        · exact ⟨(by intro hc; cases hc), (by intro hc; cases hc)⟩
      · refine ⟨evP, lgP, flags', rfl, ?_, rfl⟩
        simp [hoff]
    · rw [if_neg hoff] at h
      simp only [Except.ok.injEq] at h
      subst h
      have hofftrue : st.notified_offline = true := by
        revert hoff; cases st.notified_offline <;> simp
      refine ⟨hPkeys, by simp [hofftrue], ?_, hofftrue⟩
      refine ⟨evP, lgP, flags', rfl, ?_, rfl⟩
      simp [hoff]

/-- Claim C2 witness: the amended statement evaluated on a concrete
steady-offline tick with one IPMI endpoint. -/
theorem C2_offline_tick_witness :
    ({ events := [psFailEvent "q" 0 "PS1"], logs := [], loginAttempted := true,
       state := ⟨true, false, [[("PS1", true), ("PS2", false)]]⟩ } :
        TickResult).loginAttempted
      = (⟨true, false, [initPSDict]⟩ : WorkerState).notified_offline :=
  (C2_offline_tick ⟨true, "q", ["s"], [some ⟨["PS1"], []⟩], false, [], []⟩
    ⟨true, false, [initPSDict]⟩
    { events := [psFailEvent "q" 0 "PS1"], logs := [], loginAttempted := true,
      state := ⟨true, false, [[("PS1", true), ("PS2", false)]]⟩ }
    rfl (by decide)).2.1

/-- Claim C7 counterexample: in the `Worker.run` loop body the
SharedCounter write happens BEFORE the health checks, not after: in the
iteration trace the health-checks step is at index 2 and the counter
write at index 1, so the claimed ordering (checks before increment) is
false. -/
theorem C7_counterexample :
    runIter 0 ⟨false, "q", [], [], true, [], []⟩ (initWorkerState 0)
      = .ok ([RunItem.sleep 5, RunItem.counterSet 1, RunItem.healthChecks []],
             1, initWorkerState 0)
    ∧ ¬ ([RunItem.sleep 5, RunItem.counterSet 1,
          RunItem.healthChecks []].findIdx isHealthChecks
        < [RunItem.sleep 5, RunItem.counterSet 1,
           RunItem.healthChecks []].findIdx isCounterSet) := by
  exact ⟨by decide, by decide⟩

/-- Claim C7 (amended): every iteration of `Worker.run` increments the
SharedCounter by exactly one, and the increment occurs BEFORE the health
checks of that tick (the source calls `setTestCount` on line 327 and
`check_cluster_status` on line 328). -/
theorem C7_counter_increment (counter : Nat) (inp : TickInput)
    (st : WorkerState) (tr : List RunItem) (c' : Nat) (st' : WorkerState)
    (h : runIter counter inp st = .ok (tr, c', st')) :
    c' = counter + 1 ∧
    (∃ evs, tr = [.sleep 5, .counterSet (counter + 1), .healthChecks evs]) ∧
    tr.findIdx isCounterSet < tr.findIdx isHealthChecks := by
  simp only [runIter] at h
  cases htick : check_cluster_status inp st with
  | error e0 => simp [htick] at h
  | ok r =>
    simp only [htick, Except.ok.injEq, Prod.mk.injEq] at h
    obtain ⟨rfl, rfl, rfl⟩ := h
    refine ⟨rfl, ⟨r.events, rfl⟩, ?_⟩
    simp [List.findIdx_cons, isCounterSet, isHealthChecks]

/-- Claim C7 witness: the amended statement evaluated at counter 7 on a
concrete trivial tick. -/
theorem C7_counter_increment_witness :
    (8 : Nat) = 7 + 1 ∧
    (∃ evs, [RunItem.sleep 5, RunItem.counterSet 8, RunItem.healthChecks []]
      = [.sleep 5, .counterSet (7 + 1), .healthChecks evs]) :=
  have h := C7_counter_increment 7 ⟨false, "q", [], [], true, [], []⟩
    (initWorkerState 0)
    [RunItem.sleep 5, RunItem.counterSet 8, RunItem.healthChecks []]
    8 (initWorkerState 0) (by decide)
  ⟨h.1, h.2.1⟩

/-- Claim C3 counterexample: a trap-send failure is NOT logged. With both
channels enabled, the dispatch trace with a failing trap send is
identical to the trace with a successful one (the errorIndication is
assigned to a local and discarded), and the only warning-level log line
is the event body itself — no log entry records the trap failure. -/
theorem C3_counterexample :
    notify ⟨true, true, some "transport error", none⟩ "s" "m"
        (some "nodeDownTrap") []
      = notify ⟨true, true, none, none⟩ "s" "m" (some "nodeDownTrap") []
    ∧ (notify ⟨true, true, some "transport error", none⟩ "s" "m"
        (some "nodeDownTrap") []).filter isWarnItem = [.warnLog "m"] := by
  exact ⟨rfl, by decide⟩

/-- Claim C3 (amended): `notify` logs the event body at warning level
first; each enabled channel is then invoked (trap when SNMP is enabled,
email when email is enabled), independently of the other channel's
outcome; an email failure is caught inside `send_email` and logged, never
propagating; a trap failure never propagates and never affects the rest
of the dispatch — but it is silently discarded, not logged. -/
theorem C3_dispatch (env : DispatchEnv) (subject message : String)
    (trapName : Option String) (varBinds : List (Oid × String)) :
    (notify env subject message trapName varBinds).head?
        = some (.warnLog message) ∧
    ((DispatchItem.trapSend trapName varBinds
        ∈ notify env subject message trapName varBinds)
      ↔ env.snmpEnabled = true) ∧
    ((DispatchItem.emailAttempt subject message
        ∈ notify env subject message trapName varBinds)
      ↔ env.emailEnabled = true) ∧
    (∀ e, env.emailError = some e → env.emailEnabled = true →
      DispatchItem.warnLog (emailFailMsg subject e)
        ∈ notify env subject message trapName varBinds) ∧
    (∀ t1 t2 : Option String,
      notify { env with trapErrorIndication := t1 } subject message
          trapName varBinds
        = notify { env with trapErrorIndication := t2 } subject message
          trapName varBinds) := by
  obtain ⟨se, ee, ti, em⟩ := env
  refine ⟨rfl, ?_, ?_, ?_, fun t1 t2 => rfl⟩
  · cases se <;> cases ee <;> cases em <;>
      simp [notify, sendTrap, send_email]
  · cases se <;> cases ee <;> cases em <;>
      simp [notify, sendTrap, send_email]
  · intro e he hee
    subst hee
    simp only at he
    subst he
    cases se <;> simp [notify, sendTrap, send_email]

/-- Claim C3 witness: the amended statement evaluated on a concrete
environment whose email send fails. -/
theorem C3_dispatch_witness :
    DispatchItem.warnLog (emailFailMsg "s" "boom")
      ∈ notify ⟨true, true, none, some "boom"⟩ "s" "m" (some "t") [] :=
  (C3_dispatch ⟨true, true, none, some "boom"⟩ "s" "m"
    (some "t") []).2.2.2.1 "boom" rfl rfl

/-- Claim C4: with IPMI enabled and two endpoints, a malformed
power-state query result for endpoint 0 is caught and logged (two IPMI
warnings, one per loop), endpoint 0's supplies stay unevaluated (its
dedup dictionary is unchanged and no event carries node id 0), endpoint
1 is still evaluated exactly as `check_power` prescribes, and the rest of
the tick (node and drive checks) proceeds. The query failure mode is
spec-modelled: `get_power_state` returns malformed data whose
subscripting raises the TypeError the source catches. -/
theorem C4_ipmi_partial_failure (cn s0 s1 : String) (ps : PowerStates)
    (d0 d1 d1' : PSDict) (ev1 : List Event) (lg1 : List String)
    (off : List String) (dd : List (String × String)) (b1 b2 : Bool)
    (hs : s0 ≠ s1)
    (h1 : check_power cn (some ps) 1 d1 = .ok (ev1, lg1, d1')) :
    check_cluster_status ⟨true, cn, [s0, s1], [none, some ps], true, off, dd⟩
        ⟨b1, b2, [d0, d1]⟩
      = .ok { events := ev1 ++ (check_nodes off b1).1 ++ (check_drives dd b2).1,
              logs := [ipmiWarnLog, ipmiWarnLog] ++ lg1,
              loginAttempted := false,
              state := ⟨(check_nodes off b1).2, (check_drives dd b2).2,
                        [d0, d1']⟩ }
    ∧ ∀ e ∈ ev1, ∀ i l, e.key = EntityKey.power i l → i = 1 := by
  constructor
  · have hidx0 : indexOfServer [s0, s1] s0 = 0 := by
      simp [indexOfServer]
    have hidx1 : indexOfServer [s0, s1] s1 = 1 := by
      simp [indexOfServer, hs]
    have hnone : check_power cn none 0 d0
        = .ok ([], [ipmiWarnLog, ipmiWarnLog], d0) := rfl
    have hlist : checkPowerList cn [s0, s1] [(s0, none), (s1, some ps)] [d0, d1]
        = .ok (ev1, [ipmiWarnLog, ipmiWarnLog] ++ lg1, [d0, d1']) := by
      simp only [checkPowerList, hidx0, hidx1, getNode, setNode, hnone, h1,
        List.nil_append, List.append_nil]
    simp [check_cluster_status, powerStage, hlist]
  · intro e he i l hkey
    rcases check_power_shape cn (some ps) 1 d1 ev1 lg1 d1' h1 e he with
      ⟨m, rfl⟩ | ⟨m, rfl⟩ <;>
    · simp only [psFailEvent, psClearEvent] at hkey
      simp only [EntityKey.power.injEq] at hkey
      exact hkey.1.symm

/-- Claim C4 witness: a concrete two-endpoint tick where endpoint 0's
query result is malformed and endpoint 1 reports PS1 failed. -/
theorem C4_ipmi_partial_failure_witness :
    check_cluster_status
        ⟨true, "q", ["a", "b"], [none, some ⟨["PS1"], []⟩], true, ["A"], []⟩
        ⟨false, false, [initPSDict, initPSDict]⟩
      = .ok { events := [psFailEvent "q" 1 "PS1"]
                  ++ (check_nodes ["A"] false).1 ++ (check_drives [] false).1,
              logs := [ipmiWarnLog, ipmiWarnLog] ++ [],
              loginAttempted := false,
              state := ⟨(check_nodes ["A"] false).2, (check_drives [] false).2,
                        [initPSDict, [("PS1", true), ("PS2", false)]]⟩ } :=
  (C4_ipmi_partial_failure "q" "a" "b" ⟨["PS1"], []⟩ initPSDict initPSDict
    [("PS1", true), ("PS2", false)] [psFailEvent "q" 1 "PS1"] [] ["A"] []
    false false (by decide) (by decide)).1

/-- Claim C8: every power-supply-failure ALERT emitted by a tick carries
trap name powerSupplyFailureTrap and exactly two variable bindings under
the vendor enterprise subtree 1.3.6.1.4.1.47017: OID .8 holding the node
name and OID .11 holding the failed supply's label. -/
theorem C8_power_alert_bindings (inp : TickInput) (st : WorkerState)
    (r : TickResult) (h : check_cluster_status inp st = .ok r) :
    ∀ e ∈ r.events, e.kind = .alert →
      ∀ (i : Nat) (l : String), e.key = EntityKey.power i l →
        e.trapName = some "powerSupplyFailureTrap" ∧
        e.varBinds = [(enterpriseOid ++ [8], nodeNameOf inp.clusterName i),
                      (enterpriseOid ++ [11], l)] ∧
        ∀ p ∈ e.varBinds, p.1.take 7 = enterpriseOid := by
  intro e he hkind i l hkey
  rcases tick_shape inp st r h e he with
    rfl | rfl | rfl | rfl | rfl | ⟨j, m, rfl⟩ | ⟨j, m, rfl⟩
  · simp [nodesAlertEvent] at hkey
  · simp [nodesClearEvent] at hkey
  · simp [drivesAlertEvent] at hkey
  · simp [drivesClearEvent] at hkey
  · simp [clusterOfflineEvent] at hkey
  · simp only [psFailEvent, EntityKey.power.injEq] at hkey
    obtain ⟨rfl, rfl⟩ := hkey
    refine ⟨rfl, rfl, ?_⟩
    intro p hp
    simp only [psFailEvent, List.mem_cons, List.not_mem_nil, or_false] at hp
    rcases hp with rfl | rfl <;> rfl
  · simp [psClearEvent] at hkind

/-- Claim C8 witness: the bindings of a concrete power-supply ALERT
produced by a one-endpoint tick. -/
theorem C8_power_alert_bindings_witness :
    (psFailEvent "q" 0 "PS1").trapName = some "powerSupplyFailureTrap" ∧
    (psFailEvent "q" 0 "PS1").varBinds
      = [(enterpriseOid ++ [8], nodeNameOf "q" 0),
         (enterpriseOid ++ [11], "PS1")] ∧
    ∀ p ∈ (psFailEvent "q" 0 "PS1").varBinds, p.1.take 7 = enterpriseOid :=
  C8_power_alert_bindings
    ⟨true, "q", ["s"], [some ⟨["PS1"], []⟩], true, [], []⟩
    (initWorkerState 1)
    { events := [psFailEvent "q" 0 "PS1"], logs := [], loginAttempted := false,
      state := ⟨false, false, [[("PS1", true), ("PS2", false)]]⟩ }
    (by decide) (psFailEvent "q" 0 "PS1") (by decide) rfl 0 "PS1" rfl

/-- Claim C9: the cluster-connectivity and node-aggregate notifications
share the single `notified_offline` flag: while the flag is set (by
either category) the cluster-offline ALERT is suppressed (the tick only
retries login) and the node-offline ALERT is suppressed; the
"nodes back online" CLEAR resets the shared flag, discharging an active
cluster-offline alert; and the cluster-offline ALERT is sent with trap
name nodeDownTrap. -/
theorem C9_shared_offline_flag (inp : TickInput) (st : WorkerState)
    (r : TickResult) (h : check_cluster_status inp st = .ok r) :
    (inp.credsPresent = false → st.notified_offline = true →
      projKinds .nodeConn r.events = [] ∧ r.loginAttempted = true) ∧
    (inp.credsPresent = true → st.notified_offline = true →
      0 < inp.offlineNodes.length → projKinds .nodeConn r.events = []) ∧
    (inp.credsPresent = true → st.notified_offline = true →
      inp.offlineNodes.length = 0 →
      nodesClearEvent ∈ r.events ∧ r.state.notified_offline = false) ∧
    (inp.credsPresent = false → st.notified_offline = false →
      clusterOfflineEvent ∈ r.events ∧ r.state.notified_offline = true) ∧
    clusterOfflineEvent.trapName = some "nodeDownTrap" := by
  simp only [check_cluster_status] at h
  cases hps : powerStage inp st with
  | error e0 => simp [hps] at h
  | ok t =>
    obtain ⟨evP, lgP, flags'⟩ := t
    simp only [hps] at h
    have hP := powerStage_proj_nil inp st evP lgP flags' hps .nodeConn
      (by intro i m hne; cases hne)
    by_cases hcr : inp.credsPresent
    · rw [if_pos hcr] at h
      simp only [Except.ok.injEq] at h
      subst h
      have hD : projKinds .nodeConn
          (check_drives inp.deadDrives st.notified_dead_drives).1 = [] := by
        apply projKinds_nil_of
        intro e he
        rw [check_drives_shape inp.deadDrives st.notified_dead_drives e he]
        rfl
      refine ⟨fun hc => absurd hcr (by rw [hc]; intro hcc; cases hcc),
              fun _ hf hlen => ?_, fun _ hf hlen => ?_,
              fun hc => absurd hcr (by rw [hc]; intro hcc; cases hcc), rfl⟩
      · have hN : (check_nodes inp.offlineNodes st.notified_offline).1 = [] := by
          simp [check_nodes, hlen, hf]
        rw [projKinds_append, projKinds_append, hP, hN, hD]
        rfl
      · have hN : (check_nodes inp.offlineNodes st.notified_offline).1
            = [nodesClearEvent] := by
          simp [check_nodes, hf, hlen]
        constructor
        · simp [hN]
        · simp [check_nodes, hf, hlen]
    · rw [if_neg hcr] at h
      by_cases hoff : st.notified_offline = false
      · rw [if_pos hoff] at h
        simp only [Except.ok.injEq] at h
        subst h
        refine ⟨fun _ hf => ?_, fun hc => absurd hc hcr,
                fun hc => absurd hc hcr, fun _ _ => ⟨?_, rfl⟩, rfl⟩
        · rw [hoff] at hf; cases hf
        · simp
      · rw [if_neg hoff] at h
        simp only [Except.ok.injEq] at h
        subst h
        refine ⟨fun _ _ => ⟨hP, rfl⟩, fun hc => absurd hc hcr,
                fun hc => absurd hc hcr, fun _ hf => absurd hf hoff, rfl⟩

/-- Claim C9 witness: a concrete tick with credentials present, the
shared flag set (as a cluster-offline alert leaves it) and no offline
nodes emits the nodes-back-online CLEAR and resets the flag. -/
theorem C9_shared_offline_flag_witness :
    nodesClearEvent ∈ ([nodesClearEvent] : List Event) ∧ (false : Bool) = false :=
  (C9_shared_offline_flag ⟨false, "q", [], [], true, [], []⟩
    ⟨true, false, []⟩
    { events := [nodesClearEvent], logs := [], loginAttempted := false,
      state := ⟨false, false, []⟩ }
    (by decide)).2.2.1 rfl rfl rfl

/-- Claim C10: every CLEAR notification a tick emits, regardless of
category, carries trap name nodesClearTrap and no variable bindings, and
the drive-aggregate CLEAR's body is the node-themed text
"All nodes back online". -/
theorem C10_clear_shape (inp : TickInput) (st : WorkerState)
    (r : TickResult) (h : check_cluster_status inp st = .ok r) :
    ∀ e ∈ r.events, e.kind = .clear →
      e.trapName = some "nodesClearTrap" ∧ e.varBinds = [] ∧
      (e.key = EntityKey.driveAgg → e.body = "All nodes back online") := by
  intro e he hkind
  rcases tick_shape inp st r h e he with
    rfl | rfl | rfl | rfl | rfl | ⟨j, m, rfl⟩ | ⟨j, m, rfl⟩
  · simp [nodesAlertEvent] at hkind
  · exact ⟨rfl, rfl, fun _ => rfl⟩
  · simp [drivesAlertEvent] at hkind
  · exact ⟨rfl, rfl, fun _ => rfl⟩
  · simp [clusterOfflineEvent] at hkind
  · simp [psFailEvent] at hkind
  · refine ⟨rfl, rfl, fun hk => ?_⟩
    simp [psClearEvent] at hk

/-- Claim C10 witness: the drive-aggregate CLEAR of a concrete tick
carries nodesClearTrap, no bindings, and the node-themed body. -/
theorem C10_clear_shape_witness :
    drivesClearEvent.trapName = some "nodesClearTrap" ∧
    drivesClearEvent.varBinds = [] ∧
    (drivesClearEvent.key = EntityKey.driveAgg →
      drivesClearEvent.body = "All nodes back online") :=
  C10_clear_shape ⟨false, "q", [], [], true, [], []⟩ ⟨false, true, []⟩
    { events := [drivesClearEvent], logs := [], loginAttempted := false,
      state := ⟨false, false, []⟩ }
    (by decide) drivesClearEvent (by decide) rfl

end SnmpAgent
